import Mathlib

/-!
Verification of the dmview session-store and broadcast core
(`src/server/app/state.py`, `src/server/app/models.py`, `src/server/app/main.py`).

Python strings are modelled as `List Char`; floats as `ℚ`; ints as `Int`;
timestamps as `Nat` parameters supplied by the caller (the code reads the
clock via `datetime.utcnow()`); generated uuids as explicit parameters.
Python `dict`s are modelled as association lists with Python's semantics:
insertion keeps first-insertion position on key overwrite, and iteration
follows insertion order.
-/

/-- Python `str` modelled as a list of characters. -/
abbrev PyStr := List Char

/-- ASCII uppercase of one character, as Python `str.upper` acts on ASCII. -/
def upperChar (c : Char) : Char :=
  if 97 ≤ c.toNat ∧ c.toNat ≤ 122 then Char.ofNat (c.toNat - 32) else c

/-- Python `str.upper` (ASCII fragment). -/
def pyUpper (s : PyStr) : PyStr := s.map upperChar

/-- Python `str.strip`: drop leading and trailing whitespace. -/
def pyStrip (s : PyStr) : PyStr :=
  ((s.dropWhile Char.isWhitespace).reverse.dropWhile Char.isWhitespace).reverse

/-- Python `%` on reals with positive modulus: `a - b * floor (a / b)`. -/
def pymod (a b : ℚ) : ℚ := a - b * ⌊a / b⌋

/-- `_clamp_unit` from `state.py`: clamp an optional value into `[0, 1]`. -/
def _clamp_unit (value : Option ℚ) : Option ℚ :=
  match value with
  | none => none
  | some v => some (max 0 (min 1 v))

/-- `_clamp_or_default` from `state.py`. -/
def _clamp_or_default (value : Option ℚ) (default : ℚ) : ℚ :=
  match value with
  | some v => max 0 (min 1 v)
  | none => default

/-! ## Data model (`models.py`) -/

structure WarpPoint where
  x : ℚ
  y : ℚ

def DEFAULT_WARP : List WarpPoint :=
  [⟨1/20, 1/20⟩, ⟨19/20, 1/20⟩, ⟨19/20, 19/20⟩, ⟨1/20, 19/20⟩]

structure WarpConfig where
  corners : List WarpPoint

structure MapView where
  center : WarpPoint
  zoom : ℚ
  rotation : ℚ

def defaultMapView : MapView := ⟨⟨1/2, 1/2⟩, 1, 0⟩

structure MapState where
  image_url : Option PyStr
  warp : WarpConfig
  grid_size : Option ℚ
  view : MapView

def defaultMapState : MapState := ⟨none, ⟨DEFAULT_WARP⟩, none, defaultMapView⟩

inductive TokenKind where
  | pc
  | npc
  | prop
deriving DecidableEq

structure TokenStats where
  hp : Option Int
  max_hp : Option Int
  initiative : Option ℚ
  spell_slots : List (PyStr × Int)

def defaultTokenStats : TokenStats := ⟨none, none, none, []⟩

structure Token where
  id : PyStr
  name : PyStr
  kind : TokenKind
  color : PyStr
  x : ℚ
  y : ℚ
  visible : Bool
  notes : Option PyStr
  stats : TokenStats

structure TokenPreset where
  id : PyStr
  name : PyStr
  kind : TokenKind
  color : PyStr
  stats : TokenStats
  notes : Option PyStr

structure SessionState where
  id : PyStr
  name : Option PyStr
  map : MapState
  tokens : List Token
  token_order : List PyStr
  presets : List TokenPreset
  updated_at : Nat

/-- `SessionState(id=..., name=...)` with pydantic defaults, stamped `now`. -/
def newSession (id : PyStr) (name : Option PyStr) (now : Nat) : SessionState :=
  ⟨id, name, defaultMapState, [], [], [], now⟩

structure SessionCreateRequest where
  name : Option PyStr
  session_id : Option PyStr

structure MapUrlRequest where
  url : PyStr

structure TokenCreateRequest where
  name : PyStr
  kind : TokenKind
  color : PyStr
  x : ℚ
  y : ℚ
  visible : Bool
  notes : Option PyStr
  stats : TokenStats

/-- A pydantic `TokenStats` used as a partial update: `model_dump(exclude_unset=True)`
distinguishes unset fields (`none`) from explicitly supplied ones (`some _`),
and an explicitly supplied optional field may itself be null (`some none`).
`spell_slots` is non-optional, so when supplied it is a dict, never null. -/
structure TokenStatsUpdate where
  hp : Option (Option Int)
  max_hp : Option (Option Int)
  initiative : Option (Option ℚ)
  spell_slots : Option (List (PyStr × Int))

structure TokenUpdateRequest where
  name : Option PyStr
  kind : Option TokenKind
  color : Option PyStr
  x : Option ℚ
  y : Option ℚ
  visible : Option Bool
  notes : Option PyStr
  stats : Option TokenStatsUpdate

structure TokenOrderUpdateRequest where
  order : List PyStr

structure PresetCreateRequest where
  name : PyStr
  kind : TokenKind
  color : PyStr
  stats : TokenStats
  notes : Option PyStr

structure PresetUpdateRequest where
  name : Option PyStr
  kind : Option TokenKind
  color : Option PyStr
  stats : Option TokenStatsUpdate
  notes : Option PyStr

/-- The error taxonomy surfaced by the store (`HTTPException` status codes):
`conflict` is the 400 "Session ID already exists", `notFound` the 404s. -/
inductive HError where
  | notFound
  | conflict
deriving DecidableEq

/-! ## Python dict operations (association lists, insertion-ordered) -/

/-- `d[k]` / `d.get(k)`. -/
def keyFind {α : Type} (d : List (PyStr × α)) (k : PyStr) : Option α :=
  (d.find? fun p => decide (p.1 = k)).map Prod.snd

/-- `d[k] = v`: overwrite in place if the key exists, else append. -/
def keyInsert {α : Type} (d : List (PyStr × α)) (k : PyStr) (v : α) :
    List (PyStr × α) :=
  if d.any fun p => decide (p.1 = k) then
    d.map fun p => if p.1 = k then (k, v) else p
  else d ++ [(k, v)]

/-- `d.pop(k, None)`: the removed value (if any) and the remaining dict. -/
def keyPop {α : Type} (d : List (PyStr × α)) (k : PyStr) :
    Option α × List (PyStr × α) :=
  match d.find? fun p => decide (p.1 = k) with
  | none => (none, d)
  | some p => (some p.2, d.eraseP fun q => decide (q.1 = k))

/-- `{token.id: token for token in tokens}`. -/
def buildDict (tokens : List Token) : List (PyStr × Token) :=
  tokens.foldl (fun d t => keyInsert d t.id t) []

/-! ## `SessionManager` (`state.py`) -/

/-- The store's `_sessions` mapping. -/
abbrev Store := List (PyStr × SessionState)

/-- `_generate_session_id`: `uuid4().hex[:6].upper()`, with the uuid hex
supplied as the `raw` parameter. -/
def _generate_session_id (raw : PyStr) : PyStr := pyUpper (raw.take 6)

/-- The loop shared by `_sync_token_order` and `set_token_order`: walk the
requested id list, popping matches out of the id→token dict; returns the
picked tokens, the matched ids (`seen`), and the leftover dict. -/
def syncLoop : List PyStr → List (PyStr × Token) →
    List Token × List PyStr × List (PyStr × Token)
  | [], d => ([], [], d)
  | k :: ks, d =>
    match keyPop d k with
    | (none, d1) => syncLoop ks d1
    | (some t, d1) =>
      let r := syncLoop ks d1
      (t :: r.1, k :: r.2.1, r.2.2)

/-- `SessionManager._sync_token_order`. -/
def _sync_token_order (session : SessionState) : SessionState :=
  if session.tokens.isEmpty then { session with token_order := [] }
  else
    let r := syncLoop session.token_order (buildDict session.tokens)
    let remaining := r.2.2.map Prod.snd
    { session with
        tokens := r.1 ++ remaining,
        token_order := r.2.1 ++ remaining.map Token.id }

/-- The `session_id` local of `create_session` before normalization:
`(payload.session_id or generate()).strip()`, falling back to a second
generated id when the strip leaves nothing.  `gen1`/`gen2` are the results of
the two potential `_generate_session_id()` calls. -/
def chosenSid (payload : SessionCreateRequest) (gen1 gen2 : PyStr) : PyStr :=
  let sid0 :=
    match payload.session_id with
    | some s => if s = [] then gen1 else s
    | none => gen1
  if pyStrip sid0 = [] then gen2 else pyStrip sid0

/-- `SessionManager.create_session`. -/
def create_session (store : Store) (payload : SessionCreateRequest)
    (gen1 gen2 : PyStr) (now : Nat) :
    Except HError (Store × SessionState) :=
  if (keyFind store (pyUpper (chosenSid payload gen1 gen2))).isSome then
    .error .conflict
  else
    .ok (keyInsert store (pyUpper (chosenSid payload gen1 gen2))
          (newSession (pyUpper (chosenSid payload gen1 gen2)) payload.name now),
        newSession (pyUpper (chosenSid payload gen1 gen2)) payload.name now)

/-- `SessionManager.require_session`. -/
def require_session (store : Store) (session_id : PyStr) :
    Except HError SessionState :=
  match keyFind store (pyUpper session_id) with
  | none => .error .notFound
  | some s => .ok s

/-- `SessionManager.mutate_session`: look up the (normalized) session, run the
mutator, re-sync the token order, stamp the timestamp, store the result.  The
mutator may raise (`Except.error`), in which case the exception propagates and
the session is left untouched (the mutators below never mutate before
raising). -/
def mutate_session (store : Store) (session_id : PyStr)
    (mutator : SessionState → Except HError SessionState) (now : Nat) :
    Except HError (Store × SessionState) :=
  match keyFind store (pyUpper session_id) with
  | none => .error .notFound
  | some session =>
    match mutator session with
    | .error e => .error e
    | .ok s1 =>
      .ok (keyInsert store (pyUpper session_id)
            { _sync_token_order s1 with updated_at := now },
          { _sync_token_order s1 with updated_at := now })

/-- `SessionManager.set_map_url`. -/
def set_map_url (store : Store) (session_id : PyStr) (payload : MapUrlRequest)
    (now : Nat) : Except HError (Store × SessionState) :=
  mutate_session store session_id
    (fun s => .ok { s with map := { s.map with image_url := some payload.url } })
    now

/-- `SessionManager.set_map_image`. -/
def set_map_image (store : Store) (session_id : PyStr) (url : PyStr)
    (now : Nat) : Except HError (Store × SessionState) :=
  mutate_session store session_id
    (fun s => .ok { s with map := { s.map with image_url := some url } })
    now

/-- `SessionManager.set_warp`. -/
def set_warp (store : Store) (session_id : PyStr) (warp : WarpConfig)
    (now : Nat) : Except HError (Store × SessionState) :=
  mutate_session store session_id
    (fun s => .ok { s with map := { s.map with warp := warp } })
    now

/-- The `MapView` actually stored by `set_map_view`'s mutator: zoom clamped
to `[0.2, 8]`, rotation taken `% 360`, and each center coordinate clamped to
unit range and then into `[half_width, 1 - half_width]`, where `half_width`
(written out below) is `0.5 / zoom` for the clamped zoom. -/
def setMapViewView (view : MapView) : MapView :=
  { center :=
      ⟨max (1/2 / max (1/5) (min 8 view.zoom))
        (min (1 - 1/2 / max (1/5) (min 8 view.zoom))
          (_clamp_or_default (some view.center.x) (1/2))),
       max (1/2 / max (1/5) (min 8 view.zoom))
        (min (1 - 1/2 / max (1/5) (min 8 view.zoom))
          (_clamp_or_default (some view.center.y) (1/2)))⟩,
    zoom := max (1/5) (min 8 view.zoom),
    rotation := pymod view.rotation 360 }

/-- `SessionManager.set_map_view`. -/
def set_map_view (store : Store) (session_id : PyStr) (view : MapView)
    (now : Nat) : Except HError (Store × SessionState) :=
  mutate_session store session_id
    (fun s => .ok { s with map := { s.map with view := setMapViewView view } })
    now

/-- The `Token(...)` constructed by `add_token`, with the generated uuid hex
as `tokId`. -/
def mkToken (payload : TokenCreateRequest) (tokId : PyStr) : Token :=
  ⟨tokId, payload.name, payload.kind, payload.color,
   _clamp_or_default (some payload.x) (1/2),
   _clamp_or_default (some payload.y) (1/2),
   payload.visible, payload.notes, payload.stats⟩

/-- `SessionManager.add_token`. -/
def add_token (store : Store) (session_id : PyStr)
    (payload : TokenCreateRequest) (tokId : PyStr) (now : Nat) :
    Except HError (Store × SessionState) :=
  mutate_session store session_id
    (fun s => .ok { s with
        tokens := s.tokens ++ [mkToken payload tokId],
        token_order := s.token_order ++ [(mkToken payload tokId).id] })
    now

/-- One dumped stats value, as it appears in `model_dump()` output. -/
inductive SVal where
  | iv (v : Option Int)
  | qv (v : Option ℚ)
  | slots (d : List (PyStr × Int))

/-- `token.stats.model_dump()`. -/
def dumpStats (s : TokenStats) : List (PyStr × SVal) :=
  [(['h','p'], .iv s.hp),
   (['m','a','x','_','h','p'], .iv s.max_hp),
   (['i','n','i','t','i','a','t','i','v','e'], .qv s.initiative),
   (['s','p','e','l','l','_','s','l','o','t','s'], .slots s.spell_slots)]

/-- `payload.stats.model_dump(exclude_unset=True)`: only explicitly-set
fields appear. -/
def dumpUpdate (u : TokenStatsUpdate) : List (PyStr × SVal) :=
  (match u.hp with
   | some v => [(['h','p'], SVal.iv v)]
   | none => []) ++
  (match u.max_hp with
   | some v => [(['m','a','x','_','h','p'], SVal.iv v)]
   | none => []) ++
  (match u.initiative with
   | some v => [(['i','n','i','t','i','a','t','i','v','e'], SVal.qv v)]
   | none => []) ++
  (match u.spell_slots with
   | some d => [(['s','p','e','l','l','_','s','l','o','t','s'], SVal.slots d)]
   | none => [])

/-- Python `v is None` on a dumped stats value. -/
def svalIsNone : SVal → Bool
  | .iv none => true
  | .qv none => true
  | _ => false

/-- The stats merge in `update_token` / `update_preset`:
`merged = old.model_dump(); merged.update({k: v for k, v in
payload.model_dump(exclude_unset=True).items() if v is not None});
TokenStats(**merged)`. -/
def mergeStats (old : TokenStats) (u : TokenStatsUpdate) : TokenStats :=
  let merged := ((dumpUpdate u).filter fun kv => !svalIsNone kv.2).foldl
    (fun d kv => keyInsert d kv.1 kv.2) (dumpStats old)
  { hp :=
      match keyFind merged ['h','p'] with
      | some (.iv v) => v
      | _ => none,
    max_hp :=
      match keyFind merged ['m','a','x','_','h','p'] with
      | some (.iv v) => v
      | _ => none,
    initiative :=
      match keyFind merged ['i','n','i','t','i','a','t','i','v','e'] with
      | some (.qv v) => v
      | _ => none,
    spell_slots :=
      match keyFind merged ['s','p','e','l','l','_','s','l','o','t','s'] with
      | some (.slots d) => d
      | _ => [] }

/-- The field-by-field update applied to the matched token in `update_token`:
the source's sequence of independent `if payload.f is not None` in-place
assignments, written as one simultaneous record update (the guards touch
disjoint fields, so the net effect is identical). -/
def applyUpdate (payload : TokenUpdateRequest) (t : Token) : Token :=
  { t with
    name := match payload.name with | some v => v | none => t.name,
    kind := match payload.kind with | some v => v | none => t.kind,
    color := match payload.color with | some v => v | none => t.color,
    x := match payload.x with
      | some v => _clamp_or_default (some v) t.x
      | none => t.x,
    y := match payload.y with
      | some v => _clamp_or_default (some v) t.y
      | none => t.y,
    visible := match payload.visible with | some v => v | none => t.visible,
    notes := match payload.notes with | some v => some v | none => t.notes,
    stats := match payload.stats with
      | some u => mergeStats t.stats u
      | none => t.stats }

/-- The `for token in session.tokens` loop of `update_token`: update the first
token with the given id; `none` when no token matches (404). -/
def updateTokenList (token_id : PyStr) (payload : TokenUpdateRequest) :
    List Token → Option (List Token)
  | [] => none
  | t :: ts =>
    if t.id = token_id then some (applyUpdate payload t :: ts)
    else (updateTokenList token_id payload ts).map (t :: ·)

/-- `SessionManager.update_token`. -/
def update_token (store : Store) (session_id token_id : PyStr)
    (payload : TokenUpdateRequest) (now : Nat) :
    Except HError (Store × SessionState) :=
  mutate_session store session_id
    (fun s =>
      match updateTokenList token_id payload s.tokens with
      | none => .error .notFound
      | some ts => .ok { s with tokens := ts })
    now

/-- `SessionManager.delete_token`. -/
def delete_token (store : Store) (session_id token_id : PyStr) (now : Nat) :
    Except HError (Store × SessionState) :=
  mutate_session store session_id
    (fun s => .ok { s with
        tokens := s.tokens.filter fun t => !decide (t.id = token_id),
        token_order := s.token_order.filter fun tid => !decide (tid = token_id) })
    now

/-- `SessionManager.set_token_order`'s mutator body. -/
def setTokenOrderMutator (desired : List PyStr) (s : SessionState) :
    SessionState :=
  let r := syncLoop desired (buildDict s.tokens)
  let remaining := r.2.2.map Prod.snd
  { s with
      tokens := r.1 ++ remaining,
      token_order := r.2.1 ++ remaining.map Token.id }

/-- `SessionManager.set_token_order`. -/
def set_token_order (store : Store) (session_id : PyStr)
    (payload : TokenOrderUpdateRequest) (now : Nat) :
    Except HError (Store × SessionState) :=
  mutate_session store session_id
    (fun s => .ok (setTokenOrderMutator payload.order s)) now

/-- The `TokenPreset(...)` constructed by `add_preset`. -/
def mkPreset (payload : PresetCreateRequest) (presetId : PyStr) : TokenPreset :=
  ⟨presetId, payload.name, payload.kind, payload.color, payload.stats,
   payload.notes⟩

/-- `SessionManager.add_preset`. -/
def add_preset (store : Store) (session_id : PyStr)
    (payload : PresetCreateRequest) (presetId : PyStr) (now : Nat) :
    Except HError (Store × SessionState) :=
  mutate_session store session_id
    (fun s => .ok { s with presets := s.presets ++ [mkPreset payload presetId] })
    now

/-- The field-by-field update applied to the matched preset in
`update_preset`, written as one simultaneous record update as for
`applyUpdate`. -/
def applyPresetUpdate (payload : PresetUpdateRequest) (p : TokenPreset) :
    TokenPreset :=
  { p with
    name := match payload.name with | some v => v | none => p.name,
    kind := match payload.kind with | some v => v | none => p.kind,
    color := match payload.color with | some v => v | none => p.color,
    notes := match payload.notes with | some v => some v | none => p.notes,
    stats := match payload.stats with
      | some u => mergeStats p.stats u
      | none => p.stats }

/-- The `for preset in session.presets` loop of `update_preset`. -/
def updatePresetList (preset_id : PyStr) (payload : PresetUpdateRequest) :
    List TokenPreset → Option (List TokenPreset)
  | [] => none
  | p :: ps =>
    if p.id = preset_id then some (applyPresetUpdate payload p :: ps)
    else (updatePresetList preset_id payload ps).map (p :: ·)

/-- `SessionManager.update_preset`. -/
def update_preset (store : Store) (session_id preset_id : PyStr)
    (payload : PresetUpdateRequest) (now : Nat) :
    Except HError (Store × SessionState) :=
  mutate_session store session_id
    (fun s =>
      match updatePresetList preset_id payload s.presets with
      | none => .error .notFound
      | some ps => .ok { s with presets := ps })
    now

/-- `SessionManager.delete_preset`. -/
def delete_preset (store : Store) (session_id preset_id : PyStr) (now : Nat) :
    Except HError (Store × SessionState) :=
  mutate_session store session_id
    (fun s => .ok { s with
        presets := s.presets.filter fun p => !decide (p.id = preset_id) })
    now

/-! ## `WebSocketManager` (`main.py`) -/

/-- A live websocket connection handle. -/
abbrev Conn := Nat

/-- The broadcaster's `_connections` registry (`Dict[str, Set[WebSocket]]`;
each set is a duplicate-free list). -/
abbrev Registry := List (PyStr × List Conn)

/-- `WebSocketManager.connect`:
`self._connections.setdefault(session_id, set()).add(websocket)`. -/
def connect (reg : Registry) (session_id : PyStr) (ws : Conn) : Registry :=
  match keyFind reg session_id with
  | some conns =>
    keyInsert reg session_id (if ws ∈ conns then conns else conns ++ [ws])
  | none => reg ++ [(session_id, [ws])]

/-- `WebSocketManager.disconnect`, translated verbatim: note that both `if`
guards test the truthiness of the (possibly mutated) set, so the pop branch
requires the set to be simultaneously non-empty and of length zero. -/
def disconnect (reg : Registry) (session_id : PyStr) (ws : Conn) : Registry :=
  match keyFind reg session_id with
  | none => reg
  | some conns =>
    if (if conns ≠ [] ∧ ws ∈ conns then conns.erase ws else conns) ≠ [] ∧
        (if conns ≠ [] ∧ ws ∈ conns then conns.erase ws else conns).length = 0 then
      (keyInsert reg session_id
        (if conns ≠ [] ∧ ws ∈ conns then conns.erase ws else conns)).eraseP
        fun p => decide (p.1 = session_id)
    else
      keyInsert reg session_id
        (if conns ≠ [] ∧ ws ∈ conns then conns.erase ws else conns)

/-- The send loop of `broadcast_state`: try to send to each target in turn;
a send whose transport raises (`send c = false`) lands in `to_drop` instead
of aborting the loop.  Returns `(sent, to_drop)` in iteration order. -/
def broadcastLoop (send : Conn → Bool) : List Conn → List Conn × List Conn
  | [] => ([], [])
  | c :: cs =>
    let r := broadcastLoop send cs
    if send c then (c :: r.1, r.2) else (r.1, c :: r.2)

/-- `WebSocketManager.broadcast_state`: snapshot the target list, attempt every
send (failures are consumed into `to_drop`, never re-raised), then disconnect
every dropped connection.  Returns the updated registry and, as the observable
trace, the successfully-sent and dropped connection lists. -/
def broadcast_state (reg : Registry) (session_id : PyStr)
    (send : Conn → Bool) : Registry × List Conn × List Conn :=
  ((broadcastLoop send ((keyFind reg session_id).getD [])).2.foldl
      (fun g c => disconnect g session_id c) reg,
   (broadcastLoop send ((keyFind reg session_id).getD [])).1,
   (broadcastLoop send ((keyFind reg session_id).getD [])).2)

/-! ## Basic lemmas about the Python string and number primitives -/

theorem toNat_ofNat_valid (n : Nat) (h : n < 55296) : (Char.ofNat n).toNat = n := by
  have hv : n.isValidChar := Or.inl h
  rw [Char.ofNat, dif_pos hv]
  rfl

theorem upperChar_idem (c : Char) : upperChar (upperChar c) = upperChar c := by
  unfold upperChar
  split
  · next hc =>
    have hlt : c.toNat - 32 < 55296 := by omega
    rw [if_neg]
    rw [toNat_ofNat_valid _ hlt]
    omega
  · rfl

theorem pyUpper_idem (s : PyStr) : pyUpper (pyUpper s) = pyUpper s := by
  unfold pyUpper
  rw [List.map_map]
  exact List.map_congr_left fun c _ => upperChar_idem c

theorem pyUpper_ne_nil {s : PyStr} (h : s ≠ []) : pyUpper s ≠ [] := by
  cases s with
  | nil => exact absurd rfl h
  | cons c cs => simp [pyUpper]

theorem clamp_unit_mem (v : ℚ) : 0 ≤ max 0 (min 1 v) ∧ max 0 (min 1 v) ≤ 1 :=
  ⟨le_max_left 0 _, max_le zero_le_one (min_le_left 1 v)⟩

theorem clamp_or_default_mem (v : Option ℚ) (d : ℚ) (h0 : 0 ≤ d) (h1 : d ≤ 1) :
    0 ≤ _clamp_or_default v d ∧ _clamp_or_default v d ≤ 1 := by
  cases v with
  | none => exact ⟨h0, h1⟩
  | some w => exact clamp_unit_mem w

theorem pymod_eq (a b : ℚ) (hb : b ≠ 0) : pymod a b = b * Int.fract (a / b) := by
  rw [pymod, Int.fract, mul_sub, mul_comm b (a / b), div_mul_cancel₀ a hb]

theorem pymod_nonneg (a b : ℚ) (hb : 0 < b) : 0 ≤ pymod a b := by
  rw [pymod_eq a b (ne_of_gt hb)]
  exact mul_nonneg (le_of_lt hb) (Int.fract_nonneg _)

theorem pymod_lt (a b : ℚ) (hb : 0 < b) : pymod a b < b := by
  rw [pymod_eq a b (ne_of_gt hb)]
  calc b * Int.fract (a / b) < b * 1 := (mul_lt_mul_left hb).mpr (Int.fract_lt_one _)
    _ = b := mul_one b

/-! ## Lemmas about the dict operations -/


theorem keyFind_map_overwrite {α : Type} {d : List (PyStr × α)} {k : PyStr} {v : α}
    (hany : d.any (fun q => decide (q.1 = k)) = true) :
    keyFind (d.map fun p => if p.1 = k then (k, v) else p) k = some v := by
  induction d with
  | nil => simp at hany
  | cons p d ih =>
    by_cases hp : p.1 = k
    · rw [List.map_cons, if_pos hp]
      simp only [keyFind]
      rw [List.find?_cons_of_pos _ (by simp)]
      rfl
    · rw [List.map_cons, if_neg hp]
      simp only [keyFind]
      rw [List.find?_cons_of_neg _ (by simp [hp])]
      have hany' : d.any (fun q => decide (q.1 = k)) = true := by
        rcases List.any_eq_true.mp hany with ⟨q, hq, hqk⟩
        rcases List.mem_cons.mp hq with rfl | hq'
        · exact absurd (of_decide_eq_true hqk) hp
        · exact List.any_eq_true.mpr ⟨q, hq', hqk⟩
      exact ih hany'

theorem keyFind_append_new {α : Type} {d : List (PyStr × α)} {k : PyStr} {v : α}
    (hall : ∀ q ∈ d, ¬(q.1 = k)) :
    keyFind (d ++ [(k, v)]) k = some v := by
  induction d with
  | nil =>
    simp only [keyFind, List.nil_append]
    rw [List.find?_cons_of_pos _ (by simp)]
    rfl
  | cons p d ih =>
    simp only [keyFind, List.cons_append]
    rw [List.find?_cons_of_neg _ (by simp [hall p (List.mem_cons_self p d)])]
    exact ih fun q hq => hall q (List.mem_cons_of_mem p hq)

theorem keyFind_keyInsert {α : Type} (d : List (PyStr × α)) (k : PyStr) (v : α) :
    keyFind (keyInsert d k v) k = some v := by
  unfold keyInsert
  split
  · next h => exact keyFind_map_overwrite h
  · next h =>
    refine keyFind_append_new fun q hq hqk => h ?_
    exact List.any_eq_true.mpr ⟨q, hq, decide_eq_true hqk⟩

theorem keys_keyInsert {α : Type} (d : List (PyStr × α)) (k : PyStr) (v : α) :
    (keyInsert d k v).map Prod.fst =
      if d.any (fun q => decide (q.1 = k)) then d.map Prod.fst
      else d.map Prod.fst ++ [k] := by
  unfold keyInsert
  split
  · rw [List.map_map]
    refine List.map_congr_left fun p _ => ?_
    by_cases hp : p.1 = k <;> simp [Function.comp, hp]
  · simp

theorem keys_nodup_keyInsert {α : Type} {d : List (PyStr × α)} {k : PyStr} {v : α}
    (h : (d.map Prod.fst).Nodup) : ((keyInsert d k v).map Prod.fst).Nodup := by
  rw [keys_keyInsert]
  split
  · exact h
  · next hany =>
    have hk : k ∉ d.map Prod.fst := by
      intro hmem
      rcases List.mem_map.mp hmem with ⟨p, hp, hpk⟩
      exact hany (List.any_eq_true.mpr ⟨p, hp, decide_eq_true hpk⟩)
    refine List.nodup_append.mpr ⟨h, List.nodup_singleton k, ?_⟩
    intro a ha hb
    rw [List.mem_singleton] at hb
    subst hb
    exact hk ha

theorem mem_keyInsert {α : Type} {P : PyStr × α → Prop} {d : List (PyStr × α)}
    {k : PyStr} {v : α} (hd : ∀ p ∈ d, P p) (hv : P (k, v)) :
    ∀ p ∈ keyInsert d k v, P p := by
  unfold keyInsert
  split
  · intro p hp
    rcases List.mem_map.mp hp with ⟨q, hq, hqe⟩
    by_cases h : q.1 = k
    · rw [if_pos h] at hqe
      exact hqe ▸ hv
    · rw [if_neg h] at hqe
      exact hqe ▸ hd q hq
  · intro p hp
    rcases List.mem_append.mp hp with h | h
    · exact hd p h
    · rw [List.mem_singleton] at h
      exact h ▸ hv

instance : Nonempty Token :=
  ⟨⟨[], [], TokenKind.pc, [], 0, 0, true, none, defaultTokenStats⟩⟩

theorem mem_foldl_keyInsert {P : PyStr × Token → Prop} :
    ∀ (ts : List Token) (d : List (PyStr × Token)), (∀ p ∈ d, P p) →
      (∀ t ∈ ts, P (t.id, t)) →
      ∀ p ∈ ts.foldl (fun d t => keyInsert d t.id t) d, P p := by
  intro ts
  induction ts with
  | nil => intro d hd _; exact hd
  | cons t ts ih =>
    intro d hd hts
    simp only [List.foldl_cons]
    exact ih _ (mem_keyInsert hd (hts t (List.mem_cons_self t ts)))
      fun u hu => hts u (List.mem_cons_of_mem t hu)

theorem buildDict_wf (ts : List Token) :
    ∀ p ∈ buildDict ts, p.2.id = p.1 ∧ p.2 ∈ ts :=
  mem_foldl_keyInsert ts [] (fun p hp => absurd hp (List.not_mem_nil p))
    fun _t ht => ⟨rfl, ht⟩

theorem buildDict_keys_nodup (ts : List Token) :
    ((buildDict ts).map Prod.fst).Nodup := by
  have key : ∀ (l : List Token) (d : List (PyStr × Token)),
      (d.map Prod.fst).Nodup →
      ((l.foldl (fun d t => keyInsert d t.id t) d).map Prod.fst).Nodup := by
    intro l
    induction l with
    | nil => intro d h; exact h
    | cons t l ih => intro d h; exact ih _ (keys_nodup_keyInsert h)
  exact key ts [] List.nodup_nil

theorem not_mem_keys_eraseP {α : Type} {d : List (PyStr × α)} {k : PyStr}
    (hn : (d.map Prod.fst).Nodup)
    (hf : (d.find? fun p => decide (p.1 = k)).isSome = true) :
    k ∉ (d.eraseP fun p => decide (p.1 = k)).map Prod.fst := by
  induction d with
  | nil => simp at hf
  | cons p d ih =>
    rw [List.map_cons, List.nodup_cons] at hn
    by_cases hp : p.1 = k
    · rw [List.eraseP_cons_of_pos (by simp [hp])]
      exact hp ▸ hn.1
    · rw [List.eraseP_cons_of_neg (by simp [hp])]
      rw [List.find?_cons_of_neg _ (by simp [hp])] at hf
      simp only [List.map_cons, List.mem_cons]
      rintro (h | h)
      · exact hp h.symm
      · exact ih hn.2 hf h

/-- The master lemma about the shared pop loop: over a well-keyed dict with
duplicate-free keys, the matched id list `seen` is exactly the id list of the
picked tokens, the leftover dict stays well-keyed, the matched ids together
with the leftover keys are duplicate-free, and everything originates in the
input dict. -/
theorem syncLoop_spec :
    ∀ (ks : List PyStr) (d : List (PyStr × Token)),
      (∀ p ∈ d, p.2.id = p.1) → (d.map Prod.fst).Nodup →
      (syncLoop ks d).2.1 = (syncLoop ks d).1.map Token.id ∧
      (∀ p ∈ (syncLoop ks d).2.2, p.2.id = p.1) ∧
      ((syncLoop ks d).2.1 ++ (syncLoop ks d).2.2.map Prod.fst).Nodup ∧
      (∀ x ∈ (syncLoop ks d).2.1 ++ (syncLoop ks d).2.2.map Prod.fst,
        x ∈ d.map Prod.fst) ∧
      (∀ t ∈ (syncLoop ks d).1, t ∈ d.map Prod.snd) ∧
      (∀ p ∈ (syncLoop ks d).2.2, p ∈ d) := by
  intro ks
  induction ks with
  | nil =>
    intro d hwf hnd
    exact ⟨rfl, hwf, hnd, fun x hx => hx, fun t ht => absurd ht (List.not_mem_nil t),
      fun p hp => hp⟩
  | cons k ks ih =>
    intro d hwf hnd
    cases hf : d.find? fun p => decide (p.1 = k) with
    | none =>
      simp only [syncLoop, keyPop, hf]
      exact ih d hwf hnd
    | some p =>
      have hpk : p.1 = k := by
        have h1 := List.find?_some hf
        exact of_decide_eq_true h1
      have hpd : p ∈ d := List.mem_of_find?_eq_some hf
      have hsub : (d.eraseP fun q => decide (q.1 = k)).Sublist d :=
        List.eraseP_sublist d
      have hwf1 : ∀ q ∈ d.eraseP fun q => decide (q.1 = k), q.2.id = q.1 :=
        fun q hq => hwf q (hsub.subset hq)
      have hnd1 : ((d.eraseP fun q => decide (q.1 = k)).map Prod.fst).Nodup :=
        (hsub.map Prod.fst).nodup hnd
      have hknot : k ∉ (d.eraseP fun q => decide (q.1 = k)).map Prod.fst :=
        not_mem_keys_eraseP hnd (by simp [hf])
      obtain ⟨ih1, ih2, ih3, ih4, ih5, ih6⟩ := ih _ hwf1 hnd1
      simp only [syncLoop, keyPop, hf]
      refine ⟨?_, ih2, ?_, ?_, ?_, fun q hq => hsub.subset (ih6 q hq)⟩
      · simp only [List.map_cons, ih1]
        rw [hwf p hpd, hpk]
      · simp only [List.cons_append, List.nodup_cons]
        exact ⟨fun hk => hknot (ih4 _ hk), ih3⟩
      · intro x hx
        simp only [List.cons_append, List.mem_cons] at hx
        rcases hx with rfl | hx
        · exact hpk ▸ List.mem_map_of_mem Prod.fst hpd
        · exact (hsub.map Prod.fst).subset (ih4 x hx)
      · intro t ht
        rcases List.mem_cons.mp ht with rfl | ht
        · exact List.mem_map_of_mem Prod.snd hpd
        · exact (hsub.map Prod.snd).subset (ih5 t ht)

/-- After `_sync_token_order`, the order list is exactly the id list of the
token collection, it is duplicate-free, and no token was invented. -/
theorem sync_invariant (s : SessionState) :
    (_sync_token_order s).token_order = ((_sync_token_order s).tokens).map Token.id ∧
    ((_sync_token_order s).token_order).Nodup ∧
    ∀ t ∈ (_sync_token_order s).tokens, t ∈ s.tokens := by
  unfold _sync_token_order
  split
  · next he =>
    rw [List.isEmpty_iff] at he
    simp [he]
  · obtain ⟨h1, h2, h3, _, h5, h6⟩ :=
      syncLoop_spec s.token_order (buildDict s.tokens)
        (fun p hp => (buildDict_wf s.tokens p hp).1)
        (buildDict_keys_nodup s.tokens)
    have hmapid :
        ((syncLoop s.token_order (buildDict s.tokens)).2.2.map Prod.snd).map Token.id =
          (syncLoop s.token_order (buildDict s.tokens)).2.2.map Prod.fst := by
      rw [List.map_map]
      exact List.map_congr_left fun p hp => h2 p hp
    refine ⟨?_, ?_, ?_⟩
    · simp only [List.map_append, hmapid, h1]
    · simp only [hmapid]
      exact h3
    · intro t ht
      rcases List.mem_append.mp ht with ht | ht
      · rcases List.mem_map.mp (h5 t ht) with ⟨p, hp, hpe⟩
        exact hpe ▸ (buildDict_wf s.tokens p hp).2
      · rcases List.mem_map.mp ht with ⟨p, hp, hpe⟩
        exact hpe ▸ (buildDict_wf s.tokens p (h6 p hp)).2

theorem sync_map_eq (s : SessionState) : (_sync_token_order s).map = s.map := by
  unfold _sync_token_order
  split <;> rfl

theorem sync_presets_eq (s : SessionState) :
    (_sync_token_order s).presets = s.presets := by
  unfold _sync_token_order
  split <;> rfl

theorem sync_id_eq (s : SessionState) : (_sync_token_order s).id = s.id := by
  unfold _sync_token_order
  split <;> rfl

theorem sync_name_eq (s : SessionState) : (_sync_token_order s).name = s.name := by
  unfold _sync_token_order
  split <;> rfl

/-- Building the id→token dict over tokens with duplicate-free ids just pairs
each token with its id. -/
theorem buildDict_eq_map {ts : List Token} (h : (ts.map Token.id).Nodup) :
    buildDict ts = ts.map fun t => (t.id, t) := by
  have key : ∀ (l : List Token) (d : List (PyStr × Token)),
      (d.map Prod.fst ++ l.map Token.id).Nodup →
      l.foldl (fun d t => keyInsert d t.id t) d = d ++ l.map fun t => (t.id, t) := by
    intro l
    induction l with
    | nil => intro d _; simp
    | cons t l ih =>
      intro d hd
      have hnot : t.id ∉ d.map Prod.fst := by
        intro hmem
        rcases List.nodup_append.mp hd with ⟨_, _, hdisj⟩
        exact hdisj hmem (by simp)
      have hins : keyInsert d t.id t = d ++ [(t.id, t)] := by
        unfold keyInsert
        rw [if_neg]
        intro hany
        rcases List.any_eq_true.mp hany with ⟨q, hq, hqk⟩
        exact hnot (List.mem_map.mpr ⟨q, hq, of_decide_eq_true hqk⟩)
      rw [List.foldl_cons, hins, ih]
      · simp
      · simpa using hd
  have := key ts [] (by simpa using h)
  simpa [buildDict] using this

/-- Popping the ids of duplicate-free tokens in their own order empties the
dict and returns everything unchanged. -/
theorem syncLoop_fixpoint :
    ∀ ts : List Token, (ts.map Token.id).Nodup →
      syncLoop (ts.map Token.id) (ts.map fun t => (t.id, t)) =
        (ts, ts.map Token.id, []) := by
  intro ts
  induction ts with
  | nil => intro _; rfl
  | cons t ts ih =>
    intro hnd
    rw [List.map_cons, List.nodup_cons] at hnd
    have hfind : ((t.id, t) :: ts.map fun u => (u.id, u)).find?
        (fun p => decide (p.1 = t.id)) = some (t.id, t) :=
      List.find?_cons_of_pos _ (by simp)
    have herase : List.eraseP (fun p => decide (p.1 = t.id))
        ((t.id, t) :: ts.map fun u => (u.id, u)) = ts.map fun u => (u.id, u) :=
      List.eraseP_cons_of_pos (by simp)
    simp only [List.map_cons, syncLoop, keyPop, hfind, herase]
    rw [ih hnd.2]

/-- `_sync_token_order` is the identity on a session already satisfying the
order invariant. -/
theorem sync_fixpoint {s : SessionState}
    (heq : s.token_order = s.tokens.map Token.id)
    (hnd : (s.tokens.map Token.id).Nodup) :
    _sync_token_order s = s := by
  unfold _sync_token_order
  split
  · next he =>
    rw [List.isEmpty_iff] at he
    cases s
    simp_all
  · rw [buildDict_eq_map hnd, heq, syncLoop_fixpoint s.tokens hnd]
    cases s
    simp_all

/-- Unfolding a successful `mutate_session` call. -/
theorem mutate_session_ok {store : Store} {sid : PyStr}
    {f : SessionState → Except HError SessionState} {now : Nat}
    {st' : Store} {s' : SessionState}
    (h : mutate_session store sid f now = .ok (st', s')) :
    ∃ s0 s1, keyFind store (pyUpper sid) = some s0 ∧ f s0 = .ok s1 ∧
      s' = { _sync_token_order s1 with updated_at := now } ∧
      st' = keyInsert store (pyUpper sid)
        { _sync_token_order s1 with updated_at := now } := by
  unfold mutate_session at h
  split at h
  · cases h
  · next s0 hfind =>
    split at h
    · cases h
    · next s1 hf =>
      simp only [Except.ok.injEq, Prod.mk.injEq] at h
      exact ⟨s0, s1, hfind, hf, h.2.symm, h.1.symm⟩

/-- Introducing a successful `mutate_session` call. -/
theorem mutate_session_ok_intro {store : Store} {sid : PyStr}
    {f : SessionState → Except HError SessionState} (now : Nat)
    {s0 s1 : SessionState}
    (hfind : keyFind store (pyUpper sid) = some s0) (hf : f s0 = .ok s1) :
    mutate_session store sid f now =
      .ok (keyInsert store (pyUpper sid)
            { _sync_token_order s1 with updated_at := now },
          { _sync_token_order s1 with updated_at := now }) := by
  unfold mutate_session
  rw [hfind]
  simp only [hf]

/-- The common shape of `set_token_order`'s mutator output and of the
re-synced session: order list = id list, duplicate-free, tokens preserved. -/
theorem setTokenOrderMutator_invariant (desired : List PyStr) (s : SessionState) :
    (setTokenOrderMutator desired s).token_order =
      ((setTokenOrderMutator desired s).tokens).map Token.id ∧
    (((setTokenOrderMutator desired s).tokens).map Token.id).Nodup := by
  obtain ⟨h1, h2, h3, _, _, _⟩ :=
    syncLoop_spec desired (buildDict s.tokens)
      (fun p hp => (buildDict_wf s.tokens p hp).1)
      (buildDict_keys_nodup s.tokens)
  have hmapid :
      ((syncLoop desired (buildDict s.tokens)).2.2.map Prod.snd).map Token.id =
        (syncLoop desired (buildDict s.tokens)).2.2.map Prod.fst := by
    rw [List.map_map]
    exact List.map_congr_left fun p hp => h2 p hp
  constructor
  · simp only [setTokenOrderMutator, List.map_append, hmapid, h1]
  · simp only [setTokenOrderMutator, List.map_append, hmapid, ← h1]
    exact h3

/-- `countP (· = a)` is `1` on a duplicate-free list containing `a`. -/
theorem countP_eq_one_of_nodup {l : List PyStr} {a : PyStr}
    (hn : l.Nodup) (ha : a ∈ l) :
    l.countP (fun i => decide (i = a)) = 1 := by
  induction l with
  | nil => simp at ha
  | cons b l ih =>
    rw [List.nodup_cons] at hn
    rw [List.countP_cons]
    rcases List.mem_cons.mp ha with rfl | ha'
    · have hz : l.countP (fun i => decide (i = a)) = 0 := by
        rw [List.countP_eq_zero]
        intro x hx hxa
        exact hn.1 ((of_decide_eq_true hxa) ▸ hx)
      simp [hz]
    · have hba : ¬(b = a) := fun hba => hn.1 (hba ▸ ha')
      rw [ih hn.2 ha']
      simp [hba]

/-- Filtering a token list with duplicate-free ids for one of its ids keeps
exactly one token. -/
theorem filter_id_length {ts : List Token} {i : PyStr}
    (hn : (ts.map Token.id).Nodup) (hi : i ∈ ts.map Token.id) :
    (ts.filter fun t => decide (t.id = i)).length = 1 := by
  induction ts with
  | nil => simp at hi
  | cons t ts ih =>
    rw [List.map_cons, List.nodup_cons] at hn
    rcases List.mem_cons.mp hi with rfl | hi'
    · rw [List.filter_cons_of_pos (by simp)]
      have hz : ts.filter (fun u => decide (u.id = t.id)) = [] := by
        rw [List.filter_eq_nil_iff]
        intro u hu hid
        exact hn.1 ((of_decide_eq_true hid) ▸ List.mem_map_of_mem Token.id hu)
      rw [hz]
      rfl
    · have hti : ¬(t.id = i) := fun h => hn.1 (h ▸ hi')
      rw [List.filter_cons_of_neg (by simp [hti])]
      exact ih hn.2 hi'

theorem find?_eraseP_congr {α : Type} {p q : α → Bool} {l : List α}
    (h : ∀ x, q x = true → p x = false) :
    (l.eraseP q).find? p = l.find? p := by
  induction l with
  | nil => rfl
  | cons a l ih =>
    by_cases hq : q a = true
    · rw [List.eraseP_cons_of_pos hq, List.find?_cons_of_neg _ (by simp [h a hq])]
    · rw [List.eraseP_cons_of_neg hq]
      by_cases hp : p a = true
      · rw [List.find?_cons_of_pos _ hp, List.find?_cons_of_pos _ hp]
      · rw [List.find?_cons_of_neg _ hp, List.find?_cons_of_neg _ hp]
        exact ih

theorem filter_cons_eraseP {k : PyStr} {ks : List PyStr} {t0 : Token} :
    ∀ {ts : List Token}, (ts.map Token.id).Nodup →
    ts.find? (fun t => decide (t.id = k)) = some t0 →
    ts.filter (fun t => !decide (t.id ∈ k :: ks)) =
      (ts.eraseP fun t => decide (t.id = k)).filter fun t => !decide (t.id ∈ ks) := by
  intro ts
  induction ts with
  | nil => intro _ hf; cases hf
  | cons t ts ih =>
    intro hts hf
    rw [List.map_cons, List.nodup_cons] at hts
    by_cases htk : t.id = k
    · rw [List.eraseP_cons_of_pos (by simp [htk])]
      rw [List.filter_cons_of_neg (by simp [htk])]
      refine List.filter_congr fun u hu => ?_
      have hune : ¬(u.id = k) := fun he =>
        hts.1 (htk ▸ he ▸ List.mem_map_of_mem Token.id hu)
      simp [List.mem_cons, hune]
    · rw [List.eraseP_cons_of_neg (by simp [htk])]
      rw [List.find?_cons_of_neg _ (by simp [htk])] at hf
      by_cases hmem : t.id ∈ ks
      · rw [List.filter_cons_of_neg (by simp [List.mem_cons, hmem]),
          List.filter_cons_of_neg (by simp [hmem])]
        exact ih hts.2 hf
      · rw [List.filter_cons_of_pos (by simp [List.mem_cons, hmem, htk]),
          List.filter_cons_of_pos (by simp [hmem])]
        rw [ih hts.2 hf]

/-- The pop loop on tokens with duplicate-free ids, driven by a
duplicate-free requested order: picked tokens are the requested ids resolved
in request order, matched ids are the requested ids that resolve, and the
leftover dict holds the unrequested tokens in their original order. -/
theorem syncLoop_find :
    ∀ (ks : List PyStr) (ts : List Token), (ts.map Token.id).Nodup → ks.Nodup →
      syncLoop ks (ts.map fun t => (t.id, t)) =
        (ks.filterMap (fun k => ts.find? fun t => decide (t.id = k)),
         ks.filter (fun k => decide (k ∈ ts.map Token.id)),
         (ts.filter fun t => !decide (t.id ∈ ks)).map fun t => (t.id, t)) := by
  intro ks
  induction ks with
  | nil =>
    intro ts _ _
    have : ts.filter (fun t => !decide (t.id ∈ ([] : List PyStr))) = ts := by
      rw [List.filter_eq_self]
      intro t _
      simp
    simp only [syncLoop, List.filterMap_nil, List.filter_nil, this]
  | cons k ks ih =>
    intro ts hts hks
    rw [List.nodup_cons] at hks
    have hfm : (ts.map fun t => (t.id, t)).find? (fun p => decide (p.1 = k)) =
        Option.map (fun t => (t.id, t)) (ts.find? fun t => decide (t.id = k)) := by
      rw [List.find?_map]
      rfl
    cases hf : ts.find? fun t => decide (t.id = k) with
    | none =>
      have hfm' : (ts.map fun t => (t.id, t)).find? (fun p => decide (p.1 = k)) =
          none := by rw [hfm, hf]; rfl
      have hnone := List.find?_eq_none.mp hf
      have hkne : ¬(k ∈ ts.map Token.id) := by
        intro hmem
        rcases List.mem_map.mp hmem with ⟨t, ht, hte⟩
        exact hnone t ht (decide_eq_true hte)
      simp only [syncLoop, keyPop, hfm']
      rw [ih ts hts hks.2]
      simp only [Prod.mk.injEq]
      refine ⟨?_, ?_, ?_⟩
      · rw [List.filterMap_cons, hf]
      · rw [List.filter_cons_of_neg (by simp [hkne])]
      · congr 1
        refine List.filter_congr fun t ht => ?_
        have : ¬(t.id = k) := fun he => hnone t ht (decide_eq_true he)
        simp [List.mem_cons, this]
    | some t0 =>
      have ht0p := List.find?_some hf
      have ht0id : t0.id = k := of_decide_eq_true ht0p
      have ht0mem : t0 ∈ ts := List.mem_of_find?_eq_some hf
      have hfm' : (ts.map fun t => (t.id, t)).find? (fun p => decide (p.1 = k)) =
          some (t0.id, t0) := by rw [hfm, hf]; rfl
      have herase : (ts.map fun t => (t.id, t)).eraseP (fun p => decide (p.1 = k)) =
          (ts.eraseP fun t => decide (t.id = k)).map fun t => (t.id, t) := by
        rw [List.eraseP_map]
        rfl
      have hsub : (ts.eraseP fun t => decide (t.id = k)).Sublist ts :=
        List.eraseP_sublist ts
      have hts1 : ((ts.eraseP fun t => decide (t.id = k)).map Token.id).Nodup :=
        (hsub.map Token.id).nodup hts
      simp only [syncLoop, keyPop, hfm', herase]
      rw [ih _ hts1 hks.2]
      simp only [Prod.mk.injEq]
      refine ⟨?_, ?_, ?_⟩
      · rw [List.filterMap_cons, hf]
        simp only [List.cons.injEq, true_and]
        refine List.filterMap_congr fun k' hk' => ?_
        refine find?_eraseP_congr fun t hqt => ?_
        have htid : t.id = k := of_decide_eq_true hqt
        have hne : k' ≠ k := fun he => hks.1 (he ▸ hk')
        rw [decide_eq_false]
        intro he
        exact hne (he.symm.trans htid)
      · have hkin : k ∈ ts.map Token.id := ht0id ▸ List.mem_map_of_mem Token.id ht0mem
        rw [List.filter_cons_of_pos (by simp [hkin])]
        simp only [List.cons.injEq, true_and]
        refine List.filter_congr fun k' hk' => ?_
        have hne : k' ≠ k := fun he => hks.1 (he ▸ hk')
        have hmm : (ts.eraseP fun t => decide (t.id = k)).map Token.id =
            (ts.map Token.id).eraseP fun i => decide (i = k) := by
          rw [List.eraseP_map]
          rfl
        have hiff : (k' ∈ (ts.eraseP fun t => decide (t.id = k)).map Token.id) ↔
            (k' ∈ ts.map Token.id) := by
          rw [hmm]
          exact List.mem_eraseP_of_neg (by simp [hne])
        simp [hiff]
      · rw [← filter_cons_eraseP hts hf]

/-! ## Arithmetic consequences of `setMapViewView` and the token clamps -/

theorem setMapViewView_zoom_bounds (v : MapView) :
    1/5 ≤ (setMapViewView v).zoom ∧ (setMapViewView v).zoom ≤ 8 :=
  ⟨le_max_left _ _, max_le (by norm_num) (min_le_left _ _)⟩

theorem setMapViewView_rotation_bounds (v : MapView) :
    0 ≤ (setMapViewView v).rotation ∧ (setMapViewView v).rotation < 360 :=
  ⟨pymod_nonneg _ _ (by norm_num), pymod_lt _ _ (by norm_num)⟩

/-- The per-axis centering arithmetic: with `z ≥ 1/5` and `hw = 1/2 / z`,
the stored coordinate `max hw (min (1 - hw) q)` ( `q` the unit-clamped
input) is at least `hw`, at most `max hw (1 - hw)`, within `[hw, 1 - hw]`
whenever `z ≥ 1`, and exactly `hw` whenever `z < 1` (where `hw > 1 - hw`). -/
theorem center_clamp_cases (z c : ℚ) (hz : 1/5 ≤ z) :
    1/2 / z ≤ max (1/2 / z) (min (1 - 1/2 / z) (max 0 (min 1 c))) ∧
    max (1/2 / z) (min (1 - 1/2 / z) (max 0 (min 1 c))) ≤
      max (1/2 / z) (1 - 1/2 / z) ∧
    (1 ≤ z → max (1/2 / z) (min (1 - 1/2 / z) (max 0 (min 1 c))) ≤ 1 - 1/2 / z) ∧
    (z < 1 → max (1/2 / z) (min (1 - 1/2 / z) (max 0 (min 1 c))) = 1/2 / z) := by
  have hzpos : 0 < z := lt_of_lt_of_le (by norm_num) hz
  refine ⟨le_max_left _ _,
    max_le (le_max_left _ _) (le_trans (min_le_left _ _) (le_max_right _ _)),
    ?_, ?_⟩
  · intro h1
    have hhalf : 1/2 / z ≤ 1/2 := by
      rw [div_le_iff₀ hzpos]
      nlinarith
    exact max_le (by linarith) (min_le_left _ _)
  · intro h1
    have hgt : 1 - 1/2 / z < 1/2 / z := by
      have : 1/2 < 1/2 / z := by
        rw [lt_div_iff₀ hzpos]
        nlinarith
      linarith
    exact max_eq_left (le_of_lt (lt_of_le_of_lt (min_le_left _ _) hgt))

theorem mkToken_bounds (payload : TokenCreateRequest) (tokId : PyStr) :
    0 ≤ (mkToken payload tokId).x ∧ (mkToken payload tokId).x ≤ 1 ∧
    0 ≤ (mkToken payload tokId).y ∧ (mkToken payload tokId).y ≤ 1 :=
  ⟨(clamp_unit_mem payload.x).1, (clamp_unit_mem payload.x).2,
   (clamp_unit_mem payload.y).1, (clamp_unit_mem payload.y).2⟩

theorem applyUpdate_bounds {t : Token} (payload : TokenUpdateRequest)
    (hx0 : 0 ≤ t.x) (hx1 : t.x ≤ 1) (hy0 : 0 ≤ t.y) (hy1 : t.y ≤ 1) :
    0 ≤ (applyUpdate payload t).x ∧ (applyUpdate payload t).x ≤ 1 ∧
    0 ≤ (applyUpdate payload t).y ∧ (applyUpdate payload t).y ≤ 1 := by
  unfold applyUpdate
  refine ⟨?_, ?_, ?_, ?_⟩ <;>
    [cases payload.x; cases payload.x; cases payload.y; cases payload.y] <;>
    first
      | assumption
      | exact (clamp_unit_mem _).1
      | exact (clamp_unit_mem _).2

/-- `updateTokenList` replaces the first matched token by its update and
keeps everything else. -/
theorem updateTokenList_mem {tid : PyStr} {payload : TokenUpdateRequest} :
    ∀ {ts ts' : List Token}, updateTokenList tid payload ts = some ts' →
      ∀ t ∈ ts', t ∈ ts ∨ ∃ u ∈ ts, t = applyUpdate payload u := by
  intro ts
  induction ts with
  | nil => intro ts' h; cases h
  | cons u ts ih =>
    intro ts' h t ht
    unfold updateTokenList at h
    split at h
    · cases h
      rcases List.mem_cons.mp ht with rfl | ht'
      · exact Or.inr ⟨u, List.mem_cons_self u ts, rfl⟩
      · exact Or.inl (List.mem_cons_of_mem u ht')
    · cases hrec : updateTokenList tid payload ts with
      | none => rw [hrec] at h; cases h
      | some ts1 =>
        rw [hrec] at h
        simp only [Option.map_some', Option.some.injEq] at h
        subst h
        rcases List.mem_cons.mp ht with rfl | ht'
        · exact Or.inl (List.mem_cons_self t ts)
        · rcases ih hrec t ht' with h1 | ⟨w, hw, he⟩
          · exact Or.inl (List.mem_cons_of_mem u h1)
          · exact Or.inr ⟨w, List.mem_cons_of_mem u hw, he⟩

/-! ## Broadcast / disconnect lemmas -/

theorem broadcastLoop_eq (send : Conn → Bool) :
    ∀ l : List Conn,
      broadcastLoop send l = (l.filter send, l.filter fun c => !send c) := by
  intro l
  induction l with
  | nil => rfl
  | cons c cs ih =>
    simp only [broadcastLoop, ih]
    by_cases h : send c = true
    · rw [if_pos h, List.filter_cons_of_pos h,
        List.filter_cons_of_neg (by simp [h])]
    · rw [if_neg h, List.filter_cons_of_neg h,
        List.filter_cons_of_pos (by simp [Bool.eq_false_iff.mpr h])]

/-- `disconnect` removes exactly the given connection from the session's
subscriber set (as a list, the first occurrence). -/
theorem keyFind_disconnect (g : Registry) (sid : PyStr) (c : Conn) :
    (keyFind (disconnect g sid c) sid).getD [] =
      ((keyFind g sid).getD []).erase c := by
  unfold disconnect
  split
  · next hf => rw [hf]; rfl
  · next conns hf =>
    have hc1 : (if conns ≠ [] ∧ c ∈ conns then conns.erase c else conns) =
        conns.erase c := by
      split
      · rfl
      · next h =>
        push_neg at h
        by_cases hnil : conns = []
        · rw [hnil]
          rfl
        · rw [List.erase_of_not_mem (h hnil)]
    rw [hc1, hf]
    have hguard : ¬(conns.erase c ≠ [] ∧ (conns.erase c).length = 0) := by
      rintro ⟨hne, hlen⟩
      exact hne (List.length_eq_zero.mp hlen)
    rw [if_neg hguard, keyFind_keyInsert]
    rfl

theorem keyFind_foldl_disconnect (sid : PyStr) :
    ∀ (drops : List Conn) (g : Registry),
      (keyFind (drops.foldl (fun r c => disconnect r sid c) g) sid).getD [] =
        drops.foldl (fun l c => l.erase c) ((keyFind g sid).getD []) := by
  intro drops
  induction drops with
  | nil => intro g; rfl
  | cons d ds ih =>
    intro g
    simp only [List.foldl_cons]
    rw [ih, keyFind_disconnect]

theorem not_mem_foldl_erase_of_not_mem {c : Conn} :
    ∀ (ds : List Conn) (l : List Conn), c ∉ l →
      c ∉ ds.foldl (fun l x => l.erase x) l := by
  intro ds
  induction ds with
  | nil => intro l h; exact h
  | cons d ds ih =>
    intro l h
    simp only [List.foldl_cons]
    exact ih _ fun hm => h (List.mem_of_mem_erase hm)

theorem not_mem_foldl_erase {c : Conn} :
    ∀ (ds : List Conn) (l : List Conn), l.Nodup → c ∈ ds →
      c ∉ ds.foldl (fun l x => l.erase x) l := by
  intro ds
  induction ds with
  | nil => intro l _ h; simp at h
  | cons d ds ih =>
    intro l hnd hc
    simp only [List.foldl_cons]
    rcases List.mem_cons.mp hc with rfl | hc'
    · exact not_mem_foldl_erase_of_not_mem ds _ hnd.not_mem_erase
    · exact ih _ (hnd.erase d) hc'

/-! ## Claim theorems -/

/-- **C1.** Every mutate-family operation (`addToken`, `updateToken`,
`deleteToken`, `setTokenOrder`, `setWarp`, `setMapView`, `setMapUrl`,
`setMapImage`, `add`/`update`/`deletePreset` — each is a `mutate_session`
instance) leaves the session's `token_order` and its token collection in
bijection: every token's id occurs exactly once in `token_order`, and every
`token_order` entry is the id of exactly one token. -/
theorem c1_token_order_bijection {store : Store} {sid : PyStr}
    {f : SessionState → Except HError SessionState} {now : Nat}
    {st' : Store} {s' : SessionState}
    (h : mutate_session store sid f now = .ok (st', s')) :
    (∀ t ∈ s'.tokens, s'.token_order.countP (fun i => decide (i = t.id)) = 1) ∧
    ∀ i ∈ s'.token_order,
      (s'.tokens.filter fun t => decide (t.id = i)).length = 1 := by
  obtain ⟨s0, s1, -, -, hs', -⟩ := mutate_session_ok h
  have htok : s'.tokens = (_sync_token_order s1).tokens := by rw [hs']
  have hord : s'.token_order = (_sync_token_order s1).token_order := by rw [hs']
  obtain ⟨heq, hnd, -⟩ := sync_invariant s1
  constructor
  · intro t ht
    rw [htok] at ht
    rw [hord]
    refine countP_eq_one_of_nodup hnd ?_
    rw [heq]
    exact List.mem_map_of_mem Token.id ht
  · intro i hi
    rw [hord, heq] at hi
    rw [htok]
    have hnd' := hnd
    rw [heq] at hnd'
    exact filter_id_length hnd' hi

def wTok1 : Token := ⟨['a'], ['a'], TokenKind.pc, [], 0, 0, true, none, defaultTokenStats⟩

def wSess1 : SessionState := ⟨['S'], none, defaultMapState, [wTok1], [], [], 3⟩

def wRes1 : SessionState := ⟨['S'], none, defaultMapState, [wTok1], [['a']], [], 7⟩

theorem c1_token_order_bijection_witness :
    mutate_session [(['S'], wSess1)] ['S'] (fun s => Except.ok s) 7 =
      .ok ([(['S'], wRes1)], wRes1) ∧
    ((∀ t ∈ wRes1.tokens,
        wRes1.token_order.countP (fun i => decide (i = t.id)) = 1) ∧
     ∀ i ∈ wRes1.token_order,
      (wRes1.tokens.filter fun t => decide (t.id = i)).length = 1) := by
  have h : mutate_session [(['S'], wSess1)] ['S'] (fun s => Except.ok s) 7 =
      .ok ([(['S'], wRes1)], wRes1) := rfl
  exact ⟨h, c1_token_order_bijection h⟩

/-- **C2.** Clamp laws: a token built by `addToken` has `x, y ∈ [0, 1]` for
every input; `addToken` and `updateToken` keep every stored token's
coordinates in `[0, 1]` (given the maintained invariant that the prior
coordinates already are); and after `setMapView` the stored zoom lies in
`[0.2, 8]` and the stored rotation in `[0, 360)`. -/
theorem c2_clamp_laws {store : Store} {sid : PyStr} {s : SessionState}
    (payload : TokenCreateRequest) (tokId : PyStr) (up : TokenUpdateRequest)
    (tid : PyStr) (v : MapView) (now : Nat)
    (hs : keyFind store (pyUpper sid) = some s)
    (hb : ∀ t ∈ s.tokens, 0 ≤ t.x ∧ t.x ≤ 1 ∧ 0 ≤ t.y ∧ t.y ≤ 1)
    (hu : (updateTokenList tid up s.tokens).isSome = true) :
    (0 ≤ (mkToken payload tokId).x ∧ (mkToken payload tokId).x ≤ 1 ∧
     0 ≤ (mkToken payload tokId).y ∧ (mkToken payload tokId).y ≤ 1) ∧
    (∃ r, add_token store sid payload tokId now = .ok r ∧
      ∀ t ∈ r.2.tokens, 0 ≤ t.x ∧ t.x ≤ 1 ∧ 0 ≤ t.y ∧ t.y ≤ 1) ∧
    (∃ r, update_token store sid tid up now = .ok r ∧
      ∀ t ∈ r.2.tokens, 0 ≤ t.x ∧ t.x ≤ 1 ∧ 0 ≤ t.y ∧ t.y ≤ 1) ∧
    ∃ r, set_map_view store sid v now = .ok r ∧
      1/5 ≤ r.2.map.view.zoom ∧ r.2.map.view.zoom ≤ 8 ∧
      0 ≤ r.2.map.view.rotation ∧ r.2.map.view.rotation < 360 := by
  refine ⟨mkToken_bounds payload tokId, ?_, ?_, ?_⟩
  · refine ⟨_, mutate_session_ok_intro now hs rfl, ?_⟩
    intro t ht
    have ht' : t ∈ { s with
        tokens := s.tokens ++ [mkToken payload tokId],
        token_order := s.token_order ++ [(mkToken payload tokId).id] }.tokens :=
      (sync_invariant _).2.2 t ht
    rcases List.mem_append.mp ht' with h1 | h1
    · exact hb t h1
    · rw [List.mem_singleton] at h1
      exact h1 ▸ mkToken_bounds payload tokId
  · obtain ⟨ts2, hts2⟩ := Option.isSome_iff_exists.mp hu
    have hmut : (fun s : SessionState =>
        match updateTokenList tid up s.tokens with
        | none => Except.error HError.notFound
        | some ts => Except.ok { s with tokens := ts }) s =
        Except.ok { s with tokens := ts2 } := by
      simp only [hts2]
    refine ⟨_, mutate_session_ok_intro now hs hmut, ?_⟩
    intro t ht
    have ht' : t ∈ ({ s with tokens := ts2 } : SessionState).tokens :=
      (sync_invariant _).2.2 t ht
    rcases updateTokenList_mem hts2 t ht' with h1 | ⟨u, hu', he⟩
    · exact hb t h1
    · obtain ⟨hu0, hu1, hu2, hu3⟩ := hb u hu'
      exact he ▸ applyUpdate_bounds up hu0 hu1 hu2 hu3
  · refine ⟨_, mutate_session_ok_intro now hs rfl, ?_⟩
    simp only [sync_map_eq]
    exact ⟨(setMapViewView_zoom_bounds v).1, (setMapViewView_zoom_bounds v).2,
      (setMapViewView_rotation_bounds v).1, (setMapViewView_rotation_bounds v).2⟩

def wUp2 : TokenUpdateRequest := ⟨none, none, none, none, none, none, none, none⟩

def wPay2 : TokenCreateRequest :=
  ⟨['n'], TokenKind.pc, [], 1/2, 1/2, true, none, defaultTokenStats⟩

def wView2 : MapView := ⟨⟨1/2, 1/2⟩, 1, 0⟩

theorem c2_clamp_laws_witness :
    (keyFind [(['S'], wSess1)] (pyUpper ['S']) = some wSess1) ∧
    (∀ t ∈ wSess1.tokens, 0 ≤ t.x ∧ t.x ≤ 1 ∧ 0 ≤ t.y ∧ t.y ≤ 1) ∧
    ((updateTokenList ['a'] wUp2 wSess1.tokens).isSome = true) ∧
    ((0 ≤ (mkToken wPay2 ['t']).x ∧ (mkToken wPay2 ['t']).x ≤ 1 ∧
      0 ≤ (mkToken wPay2 ['t']).y ∧ (mkToken wPay2 ['t']).y ≤ 1) ∧
     (∃ r, add_token [(['S'], wSess1)] ['S'] wPay2 ['t'] 9 = .ok r ∧
       ∀ t ∈ r.2.tokens, 0 ≤ t.x ∧ t.x ≤ 1 ∧ 0 ≤ t.y ∧ t.y ≤ 1) ∧
     (∃ r, update_token [(['S'], wSess1)] ['S'] ['a'] wUp2 9 = .ok r ∧
       ∀ t ∈ r.2.tokens, 0 ≤ t.x ∧ t.x ≤ 1 ∧ 0 ≤ t.y ∧ t.y ≤ 1) ∧
     ∃ r, set_map_view [(['S'], wSess1)] ['S'] wView2 9 = .ok r ∧
       1/5 ≤ r.2.map.view.zoom ∧ r.2.map.view.zoom ≤ 8 ∧
       0 ≤ r.2.map.view.rotation ∧ r.2.map.view.rotation < 360) := by
  have hb : ∀ t ∈ wSess1.tokens, 0 ≤ t.x ∧ t.x ≤ 1 ∧ 0 ≤ t.y ∧ t.y ≤ 1 := by
    intro t ht
    simp only [wSess1, List.mem_singleton] at ht
    subst ht
    simp only [wTok1]
    norm_num
  exact ⟨rfl, hb, by decide,
    c2_clamp_laws wPay2 ['t'] wUp2 ['a'] wView2 9 rfl hb (by decide)⟩

/-! ## Whitespace / generated-id support lemmas -/

theorem char_upper_range_not_ws {c : Char} (h1 : 65 ≤ c.toNat)
    (h2 : c.toNat ≤ 90) : c.isWhitespace = false := by
  simp only [Char.isWhitespace, Bool.or_eq_false_iff, decide_eq_false_iff_not]
  refine ⟨⟨⟨?_, ?_⟩, ?_⟩, ?_⟩ <;> intro he <;>
    rw [he] at h1 h2 <;> revert h1 h2 <;> decide

theorem upperChar_not_ws {c : Char} (h : c.isWhitespace = false) :
    (upperChar c).isWhitespace = false := by
  unfold upperChar
  split
  · next hc =>
    have ht : (Char.ofNat (c.toNat - 32)).toNat = c.toNat - 32 :=
      toNat_ofNat_valid _ (by omega)
    exact char_upper_range_not_ws (by rw [ht]; omega) (by rw [ht]; omega)
  · exact h

theorem pyStrip_eq_self {l : PyStr} (h : ∀ c ∈ l, c.isWhitespace = false) :
    pyStrip l = l := by
  unfold pyStrip
  have h1 : l.dropWhile Char.isWhitespace = l := by
    rw [List.dropWhile_eq_self_iff]
    intro hl hp
    rw [h _ (List.get_mem l 0 hl)] at hp
    cases hp
  rw [h1]
  have h2 : l.reverse.dropWhile Char.isWhitespace = l.reverse := by
    rw [List.dropWhile_eq_self_iff]
    intro hl hp
    rw [h _ (List.mem_reverse.mp (List.get_mem _ 0 hl))] at hp
    cases hp
  rw [h2, List.reverse_reverse]

/-- A generated session id (`uuid4().hex[:6].upper()`) contains no
whitespace provided the uuid hex does. -/
theorem generate_id_no_ws {raw : PyStr} (h : ∀ c ∈ raw, c.isWhitespace = false) :
    ∀ c ∈ _generate_session_id raw, c.isWhitespace = false := by
  intro c hc
  unfold _generate_session_id pyUpper at hc
  rcases List.mem_map.mp hc with ⟨d, hd, rfl⟩
  exact upperChar_not_ws (h d (List.take_subset 6 raw hd))

/-- A generated session id is non-empty provided the uuid hex is. -/
theorem generate_id_ne_nil {raw : PyStr} (h : raw ≠ []) :
    _generate_session_id raw ≠ [] := by
  unfold _generate_session_id
  refine pyUpper_ne_nil fun he => ?_
  rcases List.take_eq_nil_iff.mp he with h6 | hraw
  · cases h6
  · exact h hraw

/-- **C3 (amended).** After `setMapView`, the stored view is `setMapViewView v`
and, writing `z` for the stored zoom and `hw = 0.5 / z`, each stored center
coordinate lies in `[hw, max hw (1 - hw)]`; it lies in the claimed interval
`[hw, 1 - hw]` exactly when `z ≥ 1`, and for `z < 1` (where `hw > 1 - hw`,
so the claimed interval is empty) the stored coordinate equals `hw`. -/
theorem c3_view_centering {store : Store} {sid : PyStr} {s : SessionState}
    (v : MapView) (now : Nat)
    (hs : keyFind store (pyUpper sid) = some s) :
    ∃ r, set_map_view store sid v now = .ok r ∧
      r.2.map.view = setMapViewView v ∧
      (1/2 / (setMapViewView v).zoom ≤ (setMapViewView v).center.x ∧
       (setMapViewView v).center.x ≤
         max (1/2 / (setMapViewView v).zoom)
           (1 - 1/2 / (setMapViewView v).zoom) ∧
       (1 ≤ (setMapViewView v).zoom →
         (setMapViewView v).center.x ≤ 1 - 1/2 / (setMapViewView v).zoom) ∧
       ((setMapViewView v).zoom < 1 →
         (setMapViewView v).center.x = 1/2 / (setMapViewView v).zoom)) ∧
      (1/2 / (setMapViewView v).zoom ≤ (setMapViewView v).center.y ∧
       (setMapViewView v).center.y ≤
         max (1/2 / (setMapViewView v).zoom)
           (1 - 1/2 / (setMapViewView v).zoom) ∧
       (1 ≤ (setMapViewView v).zoom →
         (setMapViewView v).center.y ≤ 1 - 1/2 / (setMapViewView v).zoom) ∧
       ((setMapViewView v).zoom < 1 →
         (setMapViewView v).center.y = 1/2 / (setMapViewView v).zoom)) := by
  refine ⟨_, mutate_session_ok_intro now hs rfl, ?_, ?_, ?_⟩
  · simp only [sync_map_eq]
  · exact center_clamp_cases (max (1/5) (min 8 v.zoom)) v.center.x
      (le_max_left _ _)
  · exact center_clamp_cases (max (1/5) (min 8 v.zoom)) v.center.y
      (le_max_left _ _)

/-- **C3 counterexample.** `setMapView` with zoom `0.2` stores zoom `0.2`
and center `x = 2.5 = 0.5 / 0.2`, which violates the claimed upper bound
`x ≤ 1 - 0.5 / z = -1.5`: the claimed interval is empty whenever `z < 1`. -/
theorem c3_view_centering_counterexample :
    (setMapViewView ⟨⟨1/2, 1/2⟩, 1/5, 0⟩).zoom = 1/5 ∧
    (setMapViewView ⟨⟨1/2, 1/2⟩, 1/5, 0⟩).center.x = 5/2 ∧
    ¬((setMapViewView ⟨⟨1/2, 1/2⟩, 1/5, 0⟩).center.x ≤
        1 - 1/2 / (setMapViewView ⟨⟨1/2, 1/2⟩, 1/5, 0⟩).zoom) := by
  have h1 : min (8:ℚ) (1/5) = 1/5 := min_eq_right (by norm_num)
  have hzoom : (setMapViewView (⟨⟨1/2, 1/2⟩, 1/5, 0⟩ : MapView)).zoom = 1/5 := by
    show max (1/5 : ℚ) (min 8 (1/5)) = 1/5
    rw [h1, max_self]
  have hx : (setMapViewView (⟨⟨1/2, 1/2⟩, 1/5, 0⟩ : MapView)).center.x = 5/2 := by
    show max (1/2 / max (1/5 : ℚ) (min 8 (1/5)))
        (min (1 - 1/2 / max (1/5 : ℚ) (min 8 (1/5)))
          (_clamp_or_default (some (1/2)) (1/2))) = 5/2
    have h3 : _clamp_or_default (some (1/2 : ℚ)) (1/2) = 1/2 := by
      show max (0:ℚ) (min 1 (1/2)) = 1/2
      rw [min_eq_right (by norm_num), max_eq_right (by norm_num)]
    rw [h1, max_self, h3]
    have h2 : (1/2 : ℚ) / (1/5) = 5/2 := by norm_num
    rw [h2, min_eq_left (by norm_num), max_eq_left (by norm_num)]
  refine ⟨hzoom, hx, ?_⟩
  rw [hx, hzoom]
  norm_num

theorem c3_view_centering_witness :
    (keyFind [(['S'], wSess1)] (pyUpper ['S']) = some wSess1) ∧
    ∃ r, set_map_view [(['S'], wSess1)] ['S'] wView2 9 = .ok r ∧
      r.2.map.view = setMapViewView wView2 ∧
      (1/2 / (setMapViewView wView2).zoom ≤ (setMapViewView wView2).center.x ∧
       (setMapViewView wView2).center.x ≤
         max (1/2 / (setMapViewView wView2).zoom)
           (1 - 1/2 / (setMapViewView wView2).zoom) ∧
       (1 ≤ (setMapViewView wView2).zoom →
         (setMapViewView wView2).center.x ≤
           1 - 1/2 / (setMapViewView wView2).zoom) ∧
       ((setMapViewView wView2).zoom < 1 →
         (setMapViewView wView2).center.x = 1/2 / (setMapViewView wView2).zoom)) ∧
      (1/2 / (setMapViewView wView2).zoom ≤ (setMapViewView wView2).center.y ∧
       (setMapViewView wView2).center.y ≤
         max (1/2 / (setMapViewView wView2).zoom)
           (1 - 1/2 / (setMapViewView wView2).zoom) ∧
       (1 ≤ (setMapViewView wView2).zoom →
         (setMapViewView wView2).center.y ≤
           1 - 1/2 / (setMapViewView wView2).zoom) ∧
       ((setMapViewView wView2).zoom < 1 →
         (setMapViewView wView2).center.y = 1/2 / (setMapViewView wView2).zoom)) :=
  ⟨rfl, c3_view_centering wView2 9 rfl⟩

/-- **C4.** `create` with an explicit desired id stores the session under the
uppercase form of the stripped id and makes it retrievable under any case
variant; a second `create` whose desired id normalizes to the same form fails
with `Conflict` (HTTP 400 "Session ID already exists").  In this functional
model the failing call returns only the error, so the store mapping passed to
any later call is the unchanged one. -/
theorem c4_create_conflict {store : Store} (s v v2 : PyStr)
    (name name2 : Option PyStr) (g1 g2 g3 g4 : PyStr) (now now2 : Nat)
    (hne : pyStrip s ≠ [])
    (hfree : keyFind store (pyUpper (pyStrip s)) = none)
    (hv : pyUpper v = pyUpper (pyStrip s))
    (hv2 : pyUpper (pyStrip v2) = pyUpper (pyStrip s)) :
    create_session store ⟨name, some s⟩ g1 g2 now =
      .ok (keyInsert store (pyUpper (pyStrip s))
            (newSession (pyUpper (pyStrip s)) name now),
          newSession (pyUpper (pyStrip s)) name now) ∧
    require_session
        (keyInsert store (pyUpper (pyStrip s))
          (newSession (pyUpper (pyStrip s)) name now)) v =
      .ok (newSession (pyUpper (pyStrip s)) name now) ∧
    create_session
        (keyInsert store (pyUpper (pyStrip s))
          (newSession (pyUpper (pyStrip s)) name now))
        ⟨name2, some v2⟩ g3 g4 now2 = .error .conflict := by
  have hsne : s ≠ [] := fun he => hne (by rw [he]; rfl)
  have hchosen : chosenSid ⟨name, some s⟩ g1 g2 = pyStrip s := by
    unfold chosenSid
    simp only [if_neg hsne, if_neg hne]
  have hnn : pyUpper (pyStrip s) ≠ [] := pyUpper_ne_nil hne
  have hv2s : pyStrip v2 ≠ [] := fun he => hnn (by rw [← hv2, he]; rfl)
  have hv2ne : v2 ≠ [] := fun he => hv2s (by rw [he]; rfl)
  have hchosen2 : chosenSid ⟨name2, some v2⟩ g3 g4 = pyStrip v2 := by
    unfold chosenSid
    simp only [if_neg hv2ne, if_neg hv2s]
  refine ⟨?_, ?_, ?_⟩
  · unfold create_session
    rw [hchosen, hfree, if_neg (by simp)]
  · unfold require_session
    rw [hv, keyFind_keyInsert]
  · unfold create_session
    rw [hchosen2, hv2, keyFind_keyInsert, if_pos (by simp)]

def wS4 : PyStr := ['a','b','c','1','2','3']

def wV4 : PyStr := ['A','b','C','1','2','3']

theorem c4_create_conflict_witness :
    (pyStrip wS4 ≠ []) ∧
    (keyFind ([] : Store) (pyUpper (pyStrip wS4)) = none) ∧
    (pyUpper wS4 = pyUpper (pyStrip wS4)) ∧
    (pyUpper (pyStrip wV4) = pyUpper (pyStrip wS4)) ∧
    (create_session ([] : Store) ⟨none, some wS4⟩ ['g'] ['h'] 0 =
      .ok (keyInsert ([] : Store) (pyUpper (pyStrip wS4))
            (newSession (pyUpper (pyStrip wS4)) none 0),
          newSession (pyUpper (pyStrip wS4)) none 0) ∧
     require_session
        (keyInsert ([] : Store) (pyUpper (pyStrip wS4))
          (newSession (pyUpper (pyStrip wS4)) none 0)) wS4 =
      .ok (newSession (pyUpper (pyStrip wS4)) none 0) ∧
     create_session
        (keyInsert ([] : Store) (pyUpper (pyStrip wS4))
          (newSession (pyUpper (pyStrip wS4)) none 0))
        ⟨none, some wV4⟩ ['g'] ['h'] 1 = .error .conflict) := by
  refine ⟨by decide, rfl, by decide, by decide, ?_⟩
  exact c4_create_conflict wS4 wS4 wV4 none none ['g'] ['h'] ['g'] ['h'] 0 1
    (by decide) rfl (by decide) (by decide)

/-- **C5 counterexample.** A stats key `hp` explicitly present in the partial
update but with value `null` does *not* overwrite: the `if v is not None`
filter in `update_token` discards it, so the prior `hp = 10` is retained
where the claim requires it to be overwritten (to `null`). -/
theorem c5_stats_merge_counterexample :
    (⟨some none, none, none, none⟩ : TokenStatsUpdate).hp = some none ∧
    (mergeStats ⟨some 10, some 20, none, []⟩ ⟨some none, none, none, none⟩).hp =
      some 10 ∧
    (mergeStats ⟨some 10, some 20, none, []⟩ ⟨some none, none, none, none⟩).hp ≠
      none :=
  ⟨rfl, rfl, by decide⟩

set_option maxHeartbeats 3200000 in
/-- **C5 (amended).** `updateToken`'s stats update is a field-level merge in
which every key explicitly present *with a non-null value* overwrites the
corresponding field, while keys that are absent *or explicitly null* retain
their prior value (`spell_slots`, which cannot be null, overwrites whenever
present); in particular updating only `{hp: 5}` on `{hp: 10, max_hp: 20}`
yields `{hp: 5, max_hp: 20}`. -/
theorem c5_stats_merge :
    (∀ (t : Token) (payload : TokenUpdateRequest) (u : TokenStatsUpdate),
      payload.stats = some u →
        (applyUpdate payload t).stats = mergeStats t.stats u) ∧
    (∀ (s : TokenStats) (u : TokenStatsUpdate),
      (mergeStats s u).hp =
        (match u.hp with | some (some v) => some v | _ => s.hp) ∧
      (mergeStats s u).max_hp =
        (match u.max_hp with | some (some v) => some v | _ => s.max_hp) ∧
      (mergeStats s u).initiative =
        (match u.initiative with | some (some v) => some v | _ => s.initiative) ∧
      (mergeStats s u).spell_slots =
        (match u.spell_slots with | some d => d | none => s.spell_slots)) ∧
    mergeStats ⟨some 10, some 20, none, []⟩ ⟨some (some 5), none, none, none⟩ =
      ⟨some 5, some 20, none, []⟩ := by
  refine ⟨?_, ?_, rfl⟩
  · intro t payload u hp
    show (match payload.stats with
      | some u => mergeStats t.stats u
      | none => t.stats) = mergeStats t.stats u
    rw [hp]
  · intro s u
    obtain ⟨h1, h2, h3, h4⟩ := u
    rcases h1 with _ | (_ | v1) <;> rcases h2 with _ | (_ | v2) <;>
      rcases h3 with _ | (_ | v3) <;> rcases h4 with _ | d4 <;>
      exact ⟨rfl, rfl, rfl, rfl⟩

def wU5 : TokenStatsUpdate := ⟨some (some 5), none, none, none⟩

def wPay5 : TokenUpdateRequest := ⟨none, none, none, none, none, none, none, some wU5⟩

theorem c5_stats_merge_witness :
    wPay5.stats = some wU5 ∧
    (applyUpdate wPay5 wTok1).stats = mergeStats wTok1.stats wU5 :=
  ⟨rfl, c5_stats_merge.1 wTok1 wPay5 wU5 rfl⟩

/-- **C6.** `setTokenOrder` with a duplicate-free desired order on a session
whose tokens have duplicate-free ids reorders the tokens so that the ids
present in both come first in the desired sequence (ids matching no token are
skipped), followed by the unrequested tokens in their prior relative order;
`token_order` tracks the resulting token ids. -/
theorem c6_set_token_order {store : Store} {sid : PyStr} {s : SessionState}
    (desired : List PyStr) (now : Nat)
    (hs : keyFind store (pyUpper sid) = some s)
    (hts : (s.tokens.map Token.id).Nodup) (hd : desired.Nodup) :
    ∃ r, set_token_order store sid ⟨desired⟩ now = .ok r ∧
      r.2.tokens =
        desired.filterMap (fun k => s.tokens.find? fun t => decide (t.id = k)) ++
          s.tokens.filter (fun t => !decide (t.id ∈ desired)) ∧
      r.2.token_order = r.2.tokens.map Token.id := by
  obtain ⟨hinv1, hinv2⟩ := setTokenOrderMutator_invariant desired s
  have hfix : _sync_token_order (setTokenOrderMutator desired s) =
      setTokenOrderMutator desired s := sync_fixpoint hinv1 hinv2
  have htok : (setTokenOrderMutator desired s).tokens =
      desired.filterMap (fun k => s.tokens.find? fun t => decide (t.id = k)) ++
        s.tokens.filter (fun t => !decide (t.id ∈ desired)) := by
    unfold setTokenOrderMutator
    rw [buildDict_eq_map hts, syncLoop_find desired s.tokens hts hd]
    simp only [List.map_map]
    rw [show ((Prod.snd ∘ fun t : Token => (t.id, t))) = id from rfl,
      List.map_id]
  refine ⟨_, mutate_session_ok_intro now hs rfl, ?_, ?_⟩
  · show ({ _sync_token_order (setTokenOrderMutator desired s) with
      updated_at := now } : SessionState).tokens = _
    rw [show ({ _sync_token_order (setTokenOrderMutator desired s) with
        updated_at := now } : SessionState).tokens =
        (_sync_token_order (setTokenOrderMutator desired s)).tokens from rfl,
      hfix, htok]
  · show ({ _sync_token_order (setTokenOrderMutator desired s) with
      updated_at := now } : SessionState).token_order = _
    rw [show ({ _sync_token_order (setTokenOrderMutator desired s) with
        updated_at := now } : SessionState).token_order =
        (_sync_token_order (setTokenOrderMutator desired s)).token_order from rfl,
      hfix, hinv1]

def wTokB : Token := ⟨['b'], ['b'], TokenKind.pc, [], 0, 0, true, none, defaultTokenStats⟩

def wTokC : Token := ⟨['c'], ['c'], TokenKind.pc, [], 0, 0, true, none, defaultTokenStats⟩

def wSess6 : SessionState :=
  ⟨['S'], none, defaultMapState, [wTok1, wTokB, wTokC], [['a'], ['b'], ['c']], [], 0⟩

def wRes6 : SessionState :=
  ⟨['S'], none, defaultMapState, [wTokB, wTok1, wTokC], [['b'], ['a'], ['c']], [], 7⟩

theorem c6_set_token_order_witness :
    (keyFind [(['S'], wSess6)] (pyUpper ['S']) = some wSess6) ∧
    ((wSess6.tokens.map Token.id).Nodup) ∧
    (([['b'], ['a']] : List PyStr).Nodup) ∧
    set_token_order [(['S'], wSess6)] ['S'] ⟨[['b'], ['a']]⟩ 7 =
      .ok ([(['S'], wRes6)], wRes6) ∧
    ∃ r, set_token_order [(['S'], wSess6)] ['S'] ⟨[['b'], ['a']]⟩ 7 = .ok r ∧
      r.2.tokens =
        [['b'], ['a']].filterMap
          (fun k => wSess6.tokens.find? fun t => decide (t.id = k)) ++
          wSess6.tokens.filter (fun t => !decide (t.id ∈ [['b'], ['a']])) ∧
      r.2.token_order = r.2.tokens.map Token.id :=
  ⟨rfl, by decide, by decide, rfl,
    c6_set_token_order [['b'], ['a']] 7 rfl (by decide) (by decide)⟩

/-- Deleting an id already absent from a bijective session is a no-op up to
the freshly stamped timestamp. -/
theorem delete_token_stable {store : Store} {sid : PyStr} {x : SessionState}
    (tid : PyStr) (t2 : Nat)
    (hx : keyFind store (pyUpper sid) = some x)
    (hord : x.token_order = x.tokens.map Token.id)
    (hnd : (x.tokens.map Token.id).Nodup)
    (hclean : ∀ t ∈ x.tokens, (!decide (t.id = tid)) = true) :
    delete_token store sid tid t2 =
      .ok (keyInsert store (pyUpper sid) { x with updated_at := t2 },
          { x with updated_at := t2 }) := by
  have hmut : (fun st : SessionState => (Except.ok { st with
      tokens := st.tokens.filter fun t => !decide (t.id = tid),
      token_order := st.token_order.filter fun i => !decide (i = tid) } :
        Except HError SessionState)) x = Except.ok x := by
    have h1 : x.tokens.filter (fun t => !decide (t.id = tid)) = x.tokens :=
      List.filter_eq_self.mpr hclean
    have h2 : x.token_order.filter (fun i => !decide (i = tid)) = x.token_order := by
      refine List.filter_eq_self.mpr ?_
      intro i hi
      rw [hord] at hi
      rcases List.mem_map.mp hi with ⟨t, ht, rfl⟩
      exact hclean t ht
    show Except.ok ({ x with
      tokens := x.tokens.filter fun t => !decide (t.id = tid),
      token_order := x.token_order.filter fun i => !decide (i = tid) } :
        SessionState) = Except.ok x
    rw [h1, h2]
  have h := @mutate_session_ok_intro store sid
    (fun st : SessionState => (Except.ok { st with
      tokens := st.tokens.filter fun t => !decide (t.id = tid),
      token_order := st.token_order.filter fun i => !decide (i = tid) } :
        Except HError SessionState)) t2 x x hx hmut
  rw [sync_fixpoint hord hnd] at h
  exact h

/-- Deleting a preset id already absent from a bijective session is a no-op
up to the freshly stamped timestamp. -/
theorem delete_preset_stable {store : Store} {sid : PyStr} {x : SessionState}
    (pid : PyStr) (t2 : Nat)
    (hx : keyFind store (pyUpper sid) = some x)
    (hord : x.token_order = x.tokens.map Token.id)
    (hnd : (x.tokens.map Token.id).Nodup)
    (hclean : ∀ p ∈ x.presets, (!decide (p.id = pid)) = true) :
    delete_preset store sid pid t2 =
      .ok (keyInsert store (pyUpper sid) { x with updated_at := t2 },
          { x with updated_at := t2 }) := by
  have hmut : (fun st : SessionState => (Except.ok { st with
      presets := st.presets.filter fun p => !decide (p.id = pid) } :
        Except HError SessionState)) x = Except.ok x := by
    show Except.ok ({ x with
      presets := x.presets.filter fun p => !decide (p.id = pid) } :
        SessionState) = Except.ok x
    rw [List.filter_eq_self.mpr hclean]
  have h := @mutate_session_ok_intro store sid
    (fun st : SessionState => (Except.ok { st with
      presets := st.presets.filter fun p => !decide (p.id = pid) } :
        Except HError SessionState)) t2 x x hx hmut
  rw [sync_fixpoint hord hnd] at h
  exact h

/-- **C7 (amended).** On an existing session, `deleteToken` (and
`deletePreset`) called twice with the same id never errors, and the second
call is a no-op on every session field except `updated_at`, which every
mutation freshly stamps: the state after the second call is the state after
the first with only the timestamp replaced (so with equal timestamps the two
states are identical). -/
theorem c7_delete_idempotent {store : Store} {sid : PyStr} {s : SessionState}
    (tid pid : PyStr) (t1 t2 t3 t4 : Nat)
    (hs : keyFind store (pyUpper sid) = some s) :
    (∃ r1, delete_token store sid tid t1 = .ok r1 ∧
      ∃ r2, delete_token r1.1 sid tid t2 = .ok r2 ∧
        r2.2 = { r1.2 with updated_at := t2 }) ∧
    ∃ r1, delete_preset store sid pid t3 = .ok r1 ∧
      ∃ r2, delete_preset r1.1 sid pid t4 = .ok r2 ∧
        r2.2 = { r1.2 with updated_at := t4 } := by
  constructor
  · refine ⟨_, mutate_session_ok_intro t1 hs rfl, ?_⟩
    have hinv := sync_invariant { s with
        tokens := s.tokens.filter fun t => !decide (t.id = tid),
        token_order := s.token_order.filter fun i => !decide (i = tid) }
    have hclean : ∀ t ∈ (_sync_token_order { s with
        tokens := s.tokens.filter fun t => !decide (t.id = tid),
        token_order := s.token_order.filter fun i => !decide (i = tid) }).tokens,
        (!decide (t.id = tid)) = true := by
      intro t ht
      have ht2 : t ∈ s.tokens.filter fun t => !decide (t.id = tid) :=
        hinv.2.2 t ht
      exact @List.of_mem_filter Token (fun u => !decide (u.id = tid)) t
        s.tokens ht2
    exact ⟨_, delete_token_stable tid t2 (keyFind_keyInsert _ _ _) hinv.1
      (hinv.1 ▸ hinv.2.1) hclean, rfl⟩
  · refine ⟨_, mutate_session_ok_intro t3 hs rfl, ?_⟩
    have hinv := sync_invariant { s with
        presets := s.presets.filter fun p => !decide (p.id = pid) }
    have hclean : ∀ p ∈ (_sync_token_order { s with
        presets := s.presets.filter fun p => !decide (p.id = pid) }).presets,
        (!decide (p.id = pid)) = true := by
      intro p hp
      rw [sync_presets_eq] at hp
      have hp2 : p ∈ s.presets.filter fun p => !decide (p.id = pid) := hp
      exact @List.of_mem_filter TokenPreset (fun q => !decide (q.id = pid)) p
        s.presets hp2
    exact ⟨_, delete_preset_stable pid t4 (keyFind_keyInsert _ _ _) hinv.1
      (hinv.1 ▸ hinv.2.1) hclean, rfl⟩

def wSess7 : SessionState := ⟨['A'], none, defaultMapState, [wTok1], [['a']], [], 0⟩

def wS7a : SessionState := ⟨['A'], none, defaultMapState, [], [], [], 5⟩

def wS7b : SessionState := ⟨['A'], none, defaultMapState, [], [], [], 9⟩

/-- **C7 counterexample.** The claim as stated — second state equals first
state — fails at a concrete input: the second `deleteToken` restamps
`updated_at` (9 instead of 5), so the two snapshots differ. -/
theorem c7_delete_idempotent_counterexample :
    delete_token [(['A'], wSess7)] ['A'] ['a'] 5 = .ok ([(['A'], wS7a)], wS7a) ∧
    delete_token [(['A'], wS7a)] ['A'] ['a'] 9 = .ok ([(['A'], wS7b)], wS7b) ∧
    wS7b ≠ wS7a := by
  refine ⟨rfl, rfl, fun h => ?_⟩
  exact absurd (congrArg SessionState.updated_at h) (by decide)

theorem c7_delete_idempotent_witness :
    (keyFind [(['A'], wSess7)] (pyUpper ['A']) = some wSess7) ∧
    ((∃ r1, delete_token [(['A'], wSess7)] ['A'] ['a'] 5 = .ok r1 ∧
       ∃ r2, delete_token r1.1 ['A'] ['a'] 9 = .ok r2 ∧
         r2.2 = { r1.2 with updated_at := 9 }) ∧
     ∃ r1, delete_preset [(['A'], wSess7)] ['A'] ['p'] 5 = .ok r1 ∧
       ∃ r2, delete_preset r1.1 ['A'] ['p'] 9 = .ok r2 ∧
         r2.2 = { r1.2 with updated_at := 9 }) :=
  ⟨rfl, c7_delete_idempotent ['a'] ['p'] 5 9 5 9 rfl⟩

/-- **C8.** `broadcast` is a total function of the registry (failing sends are
consumed into the drop list, never re-raised to the caller): every connection
registered for the session at call time is attempted — ending in the sent or
the dropped list — the sent list is exactly the registered connections whose
send succeeds, in registration order, and every connection whose send fails is
detached from the session's subscriber set as a side effect. -/
theorem c8_broadcast_recovers {reg : Registry} {sid : PyStr}
    {send : Conn → Bool}
    (hnd : ((keyFind reg sid).getD []).Nodup) :
    (broadcast_state reg sid send).2.1 =
      ((keyFind reg sid).getD []).filter send ∧
    (broadcast_state reg sid send).2.2 =
      ((keyFind reg sid).getD []).filter (fun c => !send c) ∧
    (∀ c ∈ (keyFind reg sid).getD [],
      c ∈ (broadcast_state reg sid send).2.1 ∨
      c ∈ (broadcast_state reg sid send).2.2) ∧
    ∀ c ∈ (keyFind reg sid).getD [], send c = false →
      c ∉ (keyFind (broadcast_state reg sid send).1 sid).getD [] := by
  unfold broadcast_state
  rw [broadcastLoop_eq]
  refine ⟨rfl, rfl, ?_, ?_⟩
  · intro c hc
    by_cases h : send c = true
    · exact Or.inl (List.mem_filter.mpr ⟨hc, h⟩)
    · exact Or.inr (List.mem_filter.mpr ⟨hc, by simp [h]⟩)
  · intro c hc hsend
    rw [keyFind_foldl_disconnect]
    exact not_mem_foldl_erase _ _ hnd
      (List.mem_filter.mpr ⟨hc, by simp [hsend]⟩)

theorem c8_broadcast_recovers_witness :
    (((keyFind [(['S'], [1, 2, 3])] ['S']).getD []).Nodup) ∧
    ((broadcast_state [(['S'], [1, 2, 3])] ['S'] (fun c => !decide (c = 2))).2.1 =
      ((keyFind [(['S'], [1, 2, 3])] ['S']).getD []).filter
        (fun c => !decide (c = 2)) ∧
    (broadcast_state [(['S'], [1, 2, 3])] ['S'] (fun c => !decide (c = 2))).2.2 =
      ((keyFind [(['S'], [1, 2, 3])] ['S']).getD []).filter
        (fun c => !(!decide (c = 2))) ∧
    (∀ c ∈ (keyFind [(['S'], [1, 2, 3])] ['S']).getD [],
      c ∈ (broadcast_state [(['S'], [1, 2, 3])] ['S']
        (fun c => !decide (c = 2))).2.1 ∨
      c ∈ (broadcast_state [(['S'], [1, 2, 3])] ['S']
        (fun c => !decide (c = 2))).2.2) ∧
    ∀ c ∈ (keyFind [(['S'], [1, 2, 3])] ['S']).getD [],
      (!decide (c = 2)) = false →
      c ∉ (keyFind (broadcast_state [(['S'], [1, 2, 3])] ['S']
        (fun c => !decide (c = 2))).1 ['S']).getD []) :=
  ⟨by decide, c8_broadcast_recovers (by decide)⟩

/-- **C9 (code bug).** `disconnect` does remove the connection from the
session's subscriber set, but the emptied set's registry entry is **not**
removed: the guard `if conns and len(conns) == 0` is always false on an empty
set (an empty Python set is falsy), so the pop is dead code.  Evaluating the
model at the failing input — a registry holding one session with one
connection — shows the entry surviving as an empty set, where the claim (and
the evident intent of the dead pop) requires it to be gone. -/
theorem c9_disconnect_keeps_empty_entry :
    disconnect [(['S'], [5])] ['S'] 5 = [(['S'], [])] ∧
    keyFind (disconnect [(['S'], [5])] ['S'] 5) ['S'] = some [] :=
  ⟨rfl, rfl⟩

/-- **C10.** `create` with a desired id that is empty or all-whitespace does
not fail on that account and registers no empty key: the desired id is
stripped, a generated id (`_generate_session_id`, i.e. `uuid4().hex[:6]
.upper()`) is used instead, and the created session's id is a non-empty
uppercase string under which the session is stored.  The hypotheses state
the facts true of generated ids — non-empty, whitespace-free, fresh. -/
theorem c10_create_generated {store : Store} (s : PyStr) (name : Option PyStr)
    (raw1 raw2 : PyStr) (now : Nat)
    (hws : pyStrip s = [])
    (hg1 : pyStrip (_generate_session_id raw1) = _generate_session_id raw1)
    (hg1n : _generate_session_id raw1 ≠ [])
    (hg2n : _generate_session_id raw2 ≠ [])
    (hfree1 : keyFind store (pyUpper (_generate_session_id raw1)) = none)
    (hfree2 : keyFind store (pyUpper (_generate_session_id raw2)) = none) :
    ∃ st1 sess,
      create_session store ⟨name, some s⟩ (_generate_session_id raw1)
        (_generate_session_id raw2) now = .ok (st1, sess) ∧
      sess.id ≠ [] ∧ pyUpper sess.id = sess.id ∧
      st1 = keyInsert store sess.id sess := by
  by_cases hc : s = []
  · have hchosen : chosenSid ⟨name, some s⟩ (_generate_session_id raw1)
        (_generate_session_id raw2) = _generate_session_id raw1 := by
      unfold chosenSid
      simp only [if_pos hc, hg1, if_neg hg1n]
    refine ⟨keyInsert store (pyUpper (_generate_session_id raw1))
        (newSession (pyUpper (_generate_session_id raw1)) name now),
      newSession (pyUpper (_generate_session_id raw1)) name now,
      ?_, pyUpper_ne_nil hg1n, pyUpper_idem _, rfl⟩
    unfold create_session
    rw [hchosen, hfree1, if_neg (by simp)]
  · have hchosen : chosenSid ⟨name, some s⟩ (_generate_session_id raw1)
        (_generate_session_id raw2) = _generate_session_id raw2 := by
      unfold chosenSid
      simp [if_neg hc, hws]
    refine ⟨keyInsert store (pyUpper (_generate_session_id raw2))
        (newSession (pyUpper (_generate_session_id raw2)) name now),
      newSession (pyUpper (_generate_session_id raw2)) name now,
      ?_, pyUpper_ne_nil hg2n, pyUpper_idem _, rfl⟩
    unfold create_session
    rw [hchosen, hfree2, if_neg (by simp)]

theorem c10_create_generated_witness :
    (pyStrip [' '] = ([] : PyStr)) ∧
    (pyStrip (_generate_session_id ['a', 'b', 'c', 'd', 'e', 'f', '0', '0']) =
      _generate_session_id ['a', 'b', 'c', 'd', 'e', 'f', '0', '0']) ∧
    (_generate_session_id ['a', 'b', 'c', 'd', 'e', 'f', '0', '0'] ≠ []) ∧
    (_generate_session_id ['1', '2', '3', '4', '5', '6', '7', '8'] ≠ []) ∧
    (keyFind ([] : Store)
      (pyUpper (_generate_session_id ['a', 'b', 'c', 'd', 'e', 'f', '0', '0'])) =
        none) ∧
    (keyFind ([] : Store)
      (pyUpper (_generate_session_id ['1', '2', '3', '4', '5', '6', '7', '8'])) =
        none) ∧
    ∃ st1 sess,
      create_session ([] : Store) ⟨none, some [' ']⟩
        (_generate_session_id ['a', 'b', 'c', 'd', 'e', 'f', '0', '0'])
        (_generate_session_id ['1', '2', '3', '4', '5', '6', '7', '8']) 0 =
          .ok (st1, sess) ∧
      sess.id ≠ [] ∧ pyUpper sess.id = sess.id ∧
      st1 = keyInsert ([] : Store) sess.id sess :=
  ⟨by decide, by decide, by decide, by decide, rfl, rfl,
    c10_create_generated [' '] none
      ['a', 'b', 'c', 'd', 'e', 'f', '0', '0']
      ['1', '2', '3', '4', '5', '6', '7', '8'] 0
      (by decide) (by decide) (by decide) (by decide) rfl rfl⟩
